import Mathlib

attribute [local semireducible] Rat.add Rat.sub Rat.mul Rat.inv Rat.ofScientific

set_option maxRecDepth 4000

/-!
Shallow embedding of the route scheduling and feasibility core of the
`vrp_reinterpret_cat` repository: schedule update (`schedule_update.rs`),
departure optimisation (`departure_time.rs`), job time limits
(`job_time_limits.rs`), the vehicle-distance feature (`vehicle_distance.rs`)
and the checker's break assignment pass (`checker/breaks.rs`).

Timestamps, durations and distances are embedded as rationals; locations as
naturals.  The external `TransportCost` / `ActivityCost` collaborators are
parameters of every operation, bundled in `Collab`.
-/

namespace Vrp

/-- ε = 1e-6 used by the anchor loop and the critical-candidate search. -/
def epsTiny : ℚ := 1 / 1000000

/-- Stand-in for the `f64::MAX` sentinel. -/
def floatMax : ℚ := ((10 ^ 400 : ℕ) : ℚ)

/-- `TimeWindow { start, end }`. -/
structure TimeWindow where
  start : ℚ
  end_ : ℚ
deriving DecidableEq

/-- `TimeWindow::intersects` (non-strict interval overlap). -/
def TimeWindow.intersects (a b : TimeWindow) : Bool :=
  decide (a.start ≤ b.end_) && decide (b.start ≤ a.end_)

/-- `TimeSpan`: absolute window or offset span. -/
inductive TimeSpan where
  | window (tw : TimeWindow)
  | offset (s e : ℚ)
deriving DecidableEq

/-- `TimeSpan::to_time_window(anchor)`: offsets are materialised against the anchor. -/
def TimeSpan.toTimeWindow (anchor : ℚ) : TimeSpan → TimeWindow
  | .window tw => tw
  | .offset s e => ⟨anchor + s, anchor + e⟩

/-- Whether a span is an offset span (`matches!(span, TimeSpan::Offset(_))`). -/
def TimeSpan.isOffset : TimeSpan → Bool
  | .window _ => false
  | .offset _ _ => true

/-- `Schedule { arrival, departure }`. -/
structure Schedule where
  arrival : ℚ
  departure : ℚ
deriving DecidableEq

/-- A place definition inside a job (`job.places[i]`): candidate time spans and duration. -/
structure PlaceDef where
  times : List TimeSpan
  duration : ℚ
deriving DecidableEq

/-- A single job: its list of place definitions. -/
structure JobDef where
  places : List PlaceDef
deriving DecidableEq

/-- `Place { idx, location, duration, time }`: the live place of an activity with its
resolved time window. -/
structure Place where
  idx : ℕ
  location : ℕ
  duration : ℚ
  time : TimeWindow
deriving DecidableEq

/-- `Activity { place, schedule, job }` (the commute field is not used by this core). -/
structure Activity where
  place : Place
  schedule : Schedule
  job : Option JobDef
deriving DecidableEq

/-- `TravelTime` direction hint passed to the transport collaborator. -/
inductive TravelTime where
  | departure (t : ℚ)
  | arrival (t : ℚ)
deriving DecidableEq

/-- Result of `ActivityCost::estimate_departure` / `estimate_arrival`
(`ControlFlow<Timestamp, Timestamp>`). -/
inductive CtlFlow where
  | brk (v : ℚ)
  | cont (v : ℚ)
deriving DecidableEq

/-- `UnwrapValue::unwrap_value`: the payload of either variant. -/
def CtlFlow.unwrapValue : CtlFlow → ℚ
  | .brk v => v
  | .cont v => v

/-- Whether the estimation rejected (`ControlFlow::Break`). -/
def CtlFlow.isBreak : CtlFlow → Bool
  | .brk _ => true
  | .cont _ => false

/-- The external `TransportCost` and `ActivityCost` collaborators (spec §6).
Per their contract they depend on the locations / the activity's place and the
given timestamp; the actor and its reserved times are fixed per call chain and
absorbed into the functions. -/
structure Collab where
  duration : ℕ → ℕ → TravelTime → ℚ
  distance : ℕ → ℕ → TravelTime → ℚ
  estimateDeparture : Place → ℚ → CtlFlow
  estimateArrival : Place → ℚ → CtlFlow

/-- `VehiclePlace`: depot location plus its time interval bounds. -/
structure VehiclePlace where
  location : ℕ
  earliest : Option ℚ
  latest : Option ℚ
deriving DecidableEq

/-- `ActorDetail { start?, end?, time }` (only `time.end` is consumed by this core). -/
structure ActorDetail where
  start : Option VehiclePlace
  end_ : Option VehiclePlace
  timeEnd : ℚ
deriving DecidableEq

/-- `RouteCostSpan`, default `DepotToDepot`. -/
inductive RouteCostSpan where
  | depotToDepot
  | depotToLastJob
  | firstJobToDepot
  | firstJobToLastJob
deriving DecidableEq

/-- `Route`: the actor detail, the vehicle's optional cost span dimension and the tour. -/
structure Route where
  costSpanDim : Option RouteCostSpan
  detail : ActorDetail
  tour : List Activity
deriving DecidableEq

/-- `dimens.get_route_cost_span().copied().unwrap_or_default()`. -/
def Route.costSpan (r : Route) : RouteCostSpan :=
  r.costSpanDim.getD .depotToDepot

/-- `RouteState`: keyed state written by the schedule update. -/
structure RouteState where
  latestArrivals : List ℚ
  waitingTimes : List ℚ
  totalDistance : Option ℚ
  totalDuration : Option ℚ
  limitDuration : Option ℚ
deriving DecidableEq

/-- `RouteContext`: a route plus its state. -/
structure RouteContext where
  route : Route
  state : RouteState
deriving DecidableEq

/-- The start activity's departure (`tour.start().unwrap().schedule.departure`);
`0` on an empty tour, matching `get_offset_anchor`'s `unwrap_or(0.)`. -/
def Route.startDeparture (r : Route) : ℚ :=
  ((r.tour.head?).map (fun a => a.schedule.departure)).getD 0

/-- `get_offset_anchor` from `schedule_update.rs`. -/
def get_offset_anchor (r : Route) : ℚ :=
  match r.costSpan with
  | .depotToDepot | .depotToLastJob => r.startDeparture
  | .firstJobToDepot | .firstJobToLastJob =>
    ((((r.tour.get? 1).filter (fun a => a.job.isSome)).map
      (fun a => a.schedule.arrival))).getD r.startDeparture

/-- Forward pass over the activities after the start: recompute each schedule from the
previous departure (`update_schedules`'s fold body). -/
def forwardPass (c : Collab) : ℕ → ℚ → List Activity → List Activity
  | _, _, [] => []
  | loc, dep, a :: rest =>
    let location := a.place.location
    let arrival := dep + c.duration loc location (.departure dep)
    let departure := (c.estimateDeparture a.place arrival).unwrapValue
    { a with schedule := ⟨arrival, departure⟩ } ::
      forwardPass c location departure rest

/-- `update_schedules`: rewrite all schedules after the start activity. -/
def update_schedules (c : Collab) (r : Route) : Route :=
  match r.tour with
  | [] => r
  | start :: rest =>
    { r with tour := start :: forwardPass c start.place.location start.schedule.departure rest }

/-- Feasibility probe on the activities after the start (`is_schedule_feasible`'s loop). -/
def feasibleFrom (c : Collab) : ℕ → ℚ → List Activity → Bool
  | _, _, [] => true
  | loc, dep, a :: rest =>
    let location := a.place.location
    let arrival := dep + c.duration loc location (.departure dep)
    match c.estimateDeparture a.place arrival with
    | .brk _ => false
    | .cont d => feasibleFrom c location d rest

/-- `is_schedule_feasible`: non-mutating forward simulation. -/
def is_schedule_feasible (c : Collab) (r : Route) : Bool :=
  match r.tour with
  | [] => true
  | start :: rest => feasibleFrom c start.place.location start.schedule.departure rest

/-- One activity of `recompute_offset_time_windows`'s walk: rewrite the resolved window
when it equals the old-anchor materialisation of some offset span of the place. -/
def rebindActivity (oldAnchor newAnchor : ℚ) (a : Activity) : Activity :=
  match a.job with
  | none => a
  | some job =>
    match job.places.get? a.place.idx with
    | none => a
    | some placeDef =>
      match placeDef.times.find? (fun span =>
          span.isOffset && decide (span.toTimeWindow oldAnchor = a.place.time)) with
      | none => a
      | some span => { a with place := { a.place with time := span.toTimeWindow newAnchor } }

/-- `recompute_offset_time_windows`. -/
def recompute_offset_time_windows (r : Route) (oldAnchor newAnchor : ℚ) : Route :=
  if oldAnchor = newAnchor then r
  else { r with tour := r.tour.map (rebindActivity oldAnchor newAnchor) }

/-- Backward fold of `update_states` over the reversed tour; returns the pushed
latest-arrival and waiting-time vectors (in processing order, to be reversed). -/
def statesFold (c : Collab) : (ℚ × ℕ × ℚ) → List Activity → (List ℚ × List ℚ)
  | _, [] => ([], [])
  | acc, act :: rest =>
    if act.job.isNone then
      let (las, wts) := statesFold c acc rest
      (0 :: las, 0 :: wts)
    else
      let (endTime, prevLoc, waiting) := acc
      let latestArrivalTime :=
        if endTime = floatMax then act.place.time.end_
        else
          let latestDeparture :=
            endTime - c.duration act.place.location prevLoc (.arrival endTime)
          (c.estimateArrival act.place latestDeparture).unwrapValue
      let futureWaiting := waiting + max (act.place.time.start - act.schedule.arrival) 0
      let (las, wts) := statesFold c (latestArrivalTime, act.place.location, futureWaiting) rest
      (latestArrivalTime :: las, futureWaiting :: wts)

/-- `update_states`: write per-activity latest-arrival and waiting-time vectors. -/
def update_states (c : Collab) (rc : RouteContext) : RouteContext :=
  let r := rc.route
  let initLoc := ((r.detail.end_.or r.detail.start).map (fun p => p.location)).getD 0
  let pr := statesFold c (r.detail.timeEnd, initLoc, 0) r.tour.reverse
  let las := pr.1.reverse
  let wts := pr.2.reverse
  let popEnd := (r.tour.getLast?).elim false (fun e => e.job.isNone)
  let las := if popEnd then las.dropLast else las
  let wts := if popEnd then wts.dropLast else wts
  { rc with state := { rc.state with latestArrivals := las, waitingTimes := wts } }

/-- `get_last_job_idx`. -/
def get_last_job_idx (r : Route) (totalActivities : ℕ) : Option ℕ :=
  if totalActivities ≤ 1 then none
  else
    match r.tour.getLast? with
    | none => none
    | some e =>
      if e.job.isNone then
        if 2 < totalActivities then some (totalActivities - 2) else none
      else some (totalActivities - 1)

/-- `has_jobs`. -/
def has_jobs (r : Route) (totalActivities : ℕ) : Bool :=
  let hasEndDepot := (r.tour.getLast?).elim false (fun e => e.job.isNone)
  if hasEndDepot then decide (2 < totalActivities) else decide (1 < totalActivities)

/-- `calculate_route_duration`. -/
def calculate_route_duration (r : Route) (costSpan : RouteCostSpan) (totalActivities : ℕ)
    (startAct endAct : Activity) : ℚ :=
  match costSpan with
  | .depotToDepot => endAct.schedule.departure - startAct.schedule.departure
  | .depotToLastJob =>
    match get_last_job_idx r totalActivities with
    | some lastJobIdx =>
      match r.tour.get? lastJobIdx with
      | some lastJob => lastJob.schedule.departure - startAct.schedule.departure
      | none => 0
    | none => 0
  | .firstJobToDepot =>
    if has_jobs r totalActivities then
      match r.tour.get? 1 with
      | some firstJob => endAct.schedule.departure - firstJob.schedule.arrival
      | none => 0
    else 0
  | .firstJobToLastJob =>
    match get_last_job_idx r totalActivities with
    | some lastJobIdx =>
      match r.tour.get? 1, r.tour.get? lastJobIdx with
      | some firstJob, some lastJob =>
        lastJob.schedule.departure - firstJob.schedule.arrival
      | _, _ => 0
    | none => 0

/-- The fold of `calculate_route_distance`: accumulate leg distances pairwise. -/
def distFold (c : Collab) : ℕ → ℚ → ℚ → List Activity → ℚ
  | _, _, acc, [] => acc
  | loc, dep, acc, a :: rest =>
    distFold c a.place.location a.schedule.departure
      (acc + c.distance loc a.place.location (.departure dep)) rest

/-- `calculate_route_distance`. -/
def calculate_route_distance (c : Collab) (r : Route) (costSpan : RouteCostSpan)
    (totalActivities : ℕ) : ℚ :=
  let lastJobIdx := get_last_job_idx r totalActivities
  let range? : Option (ℕ × ℕ) :=
    match costSpan with
    | .depotToDepot => some (0, totalActivities)
    | .depotToLastJob => lastJobIdx.map (fun k => (0, k + 1))
    | .firstJobToDepot => if has_jobs r totalActivities then some (1, totalActivities) else none
    | .firstJobToLastJob => lastJobIdx.map (fun k => (1, k + 1))
  match range? with
  | none => 0
  | some (startIdx, endIdx) =>
    match r.tour.get? startIdx with
    | none => 0
    | some sa =>
      distFold c sa.place.location sa.schedule.departure 0
        ((r.tour.drop (startIdx + 1)).take (endIdx - startIdx - 1))

/-- `update_statistics`: store total duration and distance on the route state. -/
def update_statistics (c : Collab) (rc : RouteContext) : RouteContext :=
  let r := rc.route
  match r.tour.head?, r.tour.getLast? with
  | some s, some e =>
    let costSpan := r.costSpan
    let totalDur := calculate_route_duration r costSpan r.tour.length s e
    let totalDist := calculate_route_distance c r costSpan r.tour.length
    { rc with state :=
      { rc.state with totalDistance := some totalDist, totalDuration := some totalDur } }
  | _, _ => rc

/-- Whether the cost span anchors on first-job arrival (`needs_fixed_point`). -/
def needsFixedPoint (r : Route) : Bool :=
  match r.costSpan with
  | .firstJobToDepot | .firstJobToLastJob => true
  | .depotToDepot | .depotToLastJob => false

/-- The anchor fixed-point loop of `update_route_schedule` with fuel `MAX_ITERATIONS`.
Also returns the trace of (old anchor, new anchor) pairs, one per executed iteration. -/
def anchorLoop (c : Collab) : ℕ → Route → Route × List (ℚ × ℚ)
  | 0, r => (r, [])
  | n + 1, r =>
    let anchor := get_offset_anchor r
    let r' := update_schedules c r
    let newAnchor := get_offset_anchor r'
    if |newAnchor - anchor| ≤ epsTiny then (r', [(anchor, newAnchor)])
    else ((anchorLoop c n r').1, (anchor, newAnchor) :: (anchorLoop c n r').2)

/-- `update_route_schedule`, instrumented: also returns the number of forward passes
(`update_schedules` invocations) and the anchor trace of the fixed-point loop. -/
def updateRouteScheduleT (c : Collab) (rc : RouteContext) :
    RouteContext × ℕ × List (ℚ × ℚ) :=
  let fixedPoint := needsFixedPoint rc.route
  let r1 := update_schedules c rc.route
  let pr := if fixedPoint then anchorLoop c 3 r1 else (r1, [])
  let rc2 := update_states c { rc with route := pr.1 }
  let rc3 := update_statistics c rc2
  (rc3, 1 + pr.2.length, pr.2)

/-- `update_route_schedule`. -/
def update_route_schedule (c : Collab) (rc : RouteContext) : RouteContext :=
  (updateRouteScheduleT c rc).1

/-- Overwrite `start.schedule.departure` (the write in `update_route_departure`). -/
def setStartDeparture (r : Route) (d : ℚ) : Route :=
  match r.tour with
  | [] => r
  | s :: rest => { r with tour := { s with schedule := { s.schedule with departure := d } } :: rest }

/-- `update_route_departure`. -/
def update_route_departure (c : Collab) (rc : RouteContext) (newDepartureTime : ℚ) :
    RouteContext :=
  let oldAnchor := get_offset_anchor rc.route
  let r1 := setStartDeparture rc.route newDepartureTime
  let newAnchor := get_offset_anchor r1
  let r2 := recompute_offset_time_windows r1 oldAnchor newAnchor
  update_route_schedule c { rc with route := r2 }

/-! ## `departure_time.rs` -/

/-- `try_advance_departure_time`. -/
def try_advance_departure_time (c : Collab) (rc : RouteContext) (optimizeWholeTour : Bool) :
    Option ℚ :=
  match rc.route.tour.get? 1, rc.route.tour.head? with
  | some first, some start =>
    let latestAllowedDeparture := (rc.route.detail.start.bind (fun s => s.latest)).getD floatMax
    let lastDepartureTime := start.schedule.departure
    let newDepartureTime :=
      if optimizeWholeTour then
        let folded := rc.route.tour.reverse.foldl
          (fun (acc : ℚ × ℚ) activity =>
            let waitingTime := max (activity.place.time.start - activity.schedule.arrival) 0
            let remainingTime :=
              max (activity.place.time.end_ - activity.schedule.arrival - waitingTime) 0
            (acc.1 + waitingTime, waitingTime + min remainingTime acc.2))
          ((0 : ℚ), floatMax)
        let departureShift := min folded.1 folded.2
        min (start.schedule.departure + departureShift) latestAllowedDeparture
      else
        let startToFirst := c.duration start.place.location first.place.location
          (.departure lastDepartureTime)
        min (max lastDepartureTime (first.place.time.start - startToFirst))
          latestAllowedDeparture
    if lastDepartureTime < newDepartureTime then some newDepartureTime else none
  | _, _ => none

/-- `try_recede_departure_time`. -/
def try_recede_departure_time (rc : RouteContext) : Option ℚ :=
  match rc.route.tour.get? 1, rc.route.tour.head? with
  | some first, some start =>
    match rc.state.latestArrivals.get? 1 with
    | none => none
    | some la1 =>
      let maxChange := la1 - first.schedule.arrival
      let earliestAllowedDeparture :=
        (rc.route.detail.start.bind (fun s => s.earliest)).getD start.place.time.start
      let maxChange := min (start.schedule.departure - earliestAllowedDeparture) maxChange
      let maxChange :=
        match rc.state.totalDuration, rc.state.limitDuration with
        | some total, some limit => min (limit - total) maxChange
        | _, _ => maxChange
      if 0 < maxChange then some (start.schedule.departure - maxChange) else none
  | _, _ => none

/-- `push_candidate`: the ±ε perturbations of one critical value, kept when strictly
between the current and the target departure. -/
def push_candidate (cur upper d : ℚ) : List ℚ :=
  ([-epsTiny, 0, epsTiny] : List ℚ).filterMap (fun off =>
    let v := d + off
    if cur < v ∧ v < upper then some v else none)

/-- The first offset span of the activity's place definition, with the place duration
(the `break_offsets` extraction in `compute_critical_departures`). -/
def firstOffsetTriple (a : Activity) : Option (ℚ × ℚ × ℚ) :=
  a.job.bind fun j => (j.places.get? a.place.idx).bind fun pd =>
    pd.times.findSome? (fun t =>
      match t with
      | .offset s e => some (s, e, pd.duration)
      | .window _ => none)

/-- `break_offsets`: one `(offset_start, offset_end, duration)` triple per activity
whose place definition has an offset span. -/
def break_offsets (r : Route) : List (ℚ × ℚ × ℚ) :=
  r.tour.filterMap firstOffsetTriple

/-- Whether a span is an absolute window. -/
def TimeSpan.isWindow : TimeSpan → Bool
  | .window _ => true
  | .offset _ _ => false

/-- Whether the activity's place definition has an absolute window span. -/
def hasWindowSpan (a : Activity) : Bool :=
  ((a.job.bind (fun j => j.places.get? a.place.idx)).map
    (fun pd => pd.times.any TimeSpan.isWindow)).getD false

/-- `job_tw_boundaries`: endpoints of the resolved windows of job activities whose
place has an absolute window span. -/
def job_tw_boundaries (r : Route) : List ℚ :=
  (r.tour.filter (fun a => a.job.isSome && hasWindowSpan a)).flatMap
    (fun a => [a.place.time.start, a.place.time.end_])

/-- Rust `Vec::dedup`: remove consecutive duplicates. -/
def dedupAdj : List ℚ → List ℚ
  | [] => []
  | [a] => [a]
  | a :: b :: t => if a = b then dedupAdj (b :: t) else a :: dedupAdj (b :: t)

/-- `compute_critical_departures`. -/
def compute_critical_departures (r : Route) (cur upper : ℚ) : List ℚ :=
  let breakOffsets := break_offsets r
  if breakOffsets.isEmpty then []
  else
    let boundaries := job_tw_boundaries r
    let raw := breakOffsets.flatMap (fun triple =>
      let (offStart, offEnd, breakDur) := triple
      boundaries.flatMap (fun b =>
        push_candidate cur upper (b - offEnd - breakDur) ++
        push_candidate cur upper (b - offEnd) ++
        push_candidate cur upper (b - offStart)))
    dedupAdj (raw.insertionSort (· ≤ ·))

/-- The candidate loop of `advance_departure_time`'s slow path.  Returns the final
context, the list of candidates actually tried (in trial order) and whether one
was committed. -/
def tryCandidates (c : Collab) (cur upper : ℚ) :
    List ℚ → RouteContext → RouteContext × List ℚ × Bool
  | [], rc => (rc, [], false)
  | d :: rest, rc =>
    if d ≤ cur ∨ upper ≤ d then tryCandidates c cur upper rest rc
    else
      let rc' := update_route_departure c rc d
      if is_schedule_feasible c rc'.route then (rc', [d], true)
      else
        ((tryCandidates c cur upper rest rc').1,
          d :: (tryCandidates c cur upper rest rc').2.1,
          (tryCandidates c cur upper rest rc').2.2)

/-- Outcome of `advance_departure_time`. -/
inductive AdvanceOutcome where
  | noTarget
  | fastCommit
  | slowCommit
  | restored
deriving DecidableEq

/-- `advance_departure_time`, instrumented with the list of slow-path departures tried
and the outcome taken. -/
def advanceT (c : Collab) (considerWholeTour : Bool) (rc : RouteContext) :
    RouteContext × List ℚ × AdvanceOutcome :=
  match try_advance_departure_time c rc considerWholeTour with
  | none => (rc, [], .noTarget)
  | some upper =>
    let current := rc.route.startDeparture
    let rc1 := update_route_departure c rc upper
    if is_schedule_feasible c rc1.route then (rc1, [], .fastCommit)
    else
      let candidates := compute_critical_departures rc1.route current upper
      let res := tryCandidates c current upper candidates.reverse rc1
      if res.2.2 then (res.1, res.2.1, .slowCommit)
      else (update_route_departure c res.1 current, res.2.1, .restored)

/-- `advance_departure_time`. -/
def advance_departure_time (c : Collab) (rc : RouteContext) (considerWholeTour : Bool) :
    RouteContext :=
  (advanceT c considerWholeTour rc).1

/-- `recede_departure_time`, instrumented with whether the new departure was committed. -/
def recedeT (c : Collab) (rc : RouteContext) : RouteContext × Bool :=
  match try_recede_departure_time rc with
  | none => (rc, false)
  | some newDepartureTime =>
    let current := rc.route.startDeparture
    let rc1 := update_route_departure c rc newDepartureTime
    if is_schedule_feasible c rc1.route then (rc1, true)
    else (update_route_departure c rc1 current, false)

/-- `recede_departure_time`. -/
def recede_departure_time (c : Collab) (rc : RouteContext) : RouteContext :=
  (recedeT c rc).1

/-! ## `job_time_limits.rs` -/

/-- `JobTimeConstraints { earliest_first?, latest_last? }`. -/
structure JobTimeConstraints where
  earliestFirst : Option ℚ
  latestLast : Option ℚ
deriving DecidableEq

/-- `ActivityContext { index, prev, target, next? }` of a candidate insertion. -/
structure ActivityContext where
  index : ℕ
  prev : Activity
  target : Activity
  next : Option Activity
deriving DecidableEq

/-- `MoveContext`: route-level or activity-level evaluation. -/
inductive MoveCtx where
  | route
  | activity (actx : ActivityContext)

/-- `arr_time_at_target`: departure from `prev` plus travel duration to the target. -/
def jtlArrival (c : Collab) (actx : ActivityContext) : ℚ :=
  actx.prev.schedule.departure +
    c.duration actx.prev.place.location actx.target.place.location
      (.departure actx.prev.schedule.departure)

/-- The `earliest_first` skip test of `evaluate_activity`: first job, early arrival,
window end before the earliest-first bound. -/
def jtlSkipEarliestB (c : Collab) (cs : JobTimeConstraints) (actx : ActivityContext) :
    Bool :=
  match cs.earliestFirst with
  | some earliestFirst =>
    (actx.prev.job.isNone && decide (actx.index = 0)) &&
      decide (jtlArrival c actx < earliestFirst) &&
      decide (actx.target.place.time.end_ < earliestFirst)
  | none => false

/-- `is_last_job`: `next` absent or carrying no job. -/
def jtlIsLastJobB (actx : ActivityContext) : Bool :=
  actx.next.elim true (fun nxt => nxt.job.isNone)

/-- `actual_arr_time`: the arrival after any `earliest_first` wait on the first job. -/
def jtlActualArrival (c : Collab) (cs : JobTimeConstraints) (actx : ActivityContext) : ℚ :=
  match cs.earliestFirst with
  | some earliestFirst =>
    if actx.prev.job.isNone ∧ actx.index = 0 then max (jtlArrival c actx) earliestFirst
    else jtlArrival c actx
  | none => jtlArrival c actx

/-- `departure_from_target`: the estimated departure from
`service_start = max(actual_arr_time, target.place.time.start)` (the code compares
the `ControlFlow` payload, modelled via `unwrapValue`). -/
def jtlDepOut (c : Collab) (cs : JobTimeConstraints) (actx : ActivityContext) : ℚ :=
  (c.estimateDeparture actx.target.place
    (max (jtlActualArrival c cs actx) actx.target.place.time.start)).unwrapValue

/-- `JobTimeLimitsConstraint::evaluate_activity`.  `some code` is `Skip(code)`,
`none` is allow. -/
def evaluate_activity (c : Collab) (violationCode : ℕ)
    (constraintsDim : Option JobTimeConstraints) (actx : ActivityContext) : Option ℕ :=
  match constraintsDim with
  | none => none
  | some constraints =>
    if constraints.earliestFirst.isNone ∧ constraints.latestLast.isNone then none
    else if actx.target.job.isNone then none
    else if jtlSkipEarliestB c constraints actx then some violationCode
    else
      match constraints.latestLast with
      | some latestLast =>
        if jtlIsLastJobB actx then
          if latestLast < jtlDepOut c constraints actx then some violationCode else none
        else none
      | none => none

/-- `JobTimeLimitsConstraint::evaluate` over a `MoveContext`. -/
def jobTimeLimits_evaluate (c : Collab) (violationCode : ℕ)
    (constraintsDim : Option JobTimeConstraints) : MoveCtx → Option ℕ
  | .route => none
  | .activity actx => evaluate_activity c violationCode constraintsDim actx

/-- The claim's "target is the first job": `prev` has no job and the insertion index
is 0. -/
def jtlIsFirstJob (actx : ActivityContext) : Prop :=
  actx.prev.job = none ∧ actx.index = 0

/-- The claim's "target is the last job": `next` is absent or carries no job. -/
def jtlIsLastJob (actx : ActivityContext) : Prop :=
  actx.next.elim True (fun nxt => nxt.job = none)

/-- The claim's characterisation of when `JobTimeLimitsConstraint` skips an activity
move: constraints defined, target carries a job, and the `earliest_first` or the
`latest_last` rule fires. -/
def jtlSkipCondition (c : Collab) (dim : Option JobTimeConstraints)
    (actx : ActivityContext) : Prop :=
  ∃ cs, dim = some cs ∧ actx.target.job.isSome = true ∧
    ((∃ E, cs.earliestFirst = some E ∧ jtlIsFirstJob actx ∧ jtlArrival c actx < E ∧
        actx.target.place.time.end_ < E) ∨
     (∃ L, cs.latestLast = some L ∧ jtlIsLastJob actx ∧ L < jtlDepOut c cs actx))

/-! ## `vehicle_distance.rs` -/

/-- The slice of an `Actor` consumed by the vehicle-distance feature:
`detail.start.location` and `vehicle.profile`. -/
structure VActor where
  startLoc : Option ℕ
  profile : ℕ
deriving DecidableEq

/-- A route as seen by the vehicle-distance feature: its actor and tour. -/
structure VRoute where
  actor : VActor
  tour : List Activity
deriving DecidableEq

/-- `actors[0].vehicle.profile` (never evaluated on an empty actor list in the code). -/
def headProfile (actors : List VActor) : ℕ :=
  match actors with
  | [] => 0
  | a :: _ => a.profile

/-- `find_nearest_compatible_vehicle_dist`.  Note that the code computes every
distance with `actors[0].vehicle.profile`. -/
def find_nearest_compatible_vehicle_dist (distanceApprox : ℕ → ℕ → ℕ → ℚ)
    (jobLoc : ℕ) (job : JobDef) (actors : List VActor)
    (compat : JobDef → VActor → Bool) : Option ℚ :=
  ((((actors.filter (fun a => compat job a)).filterMap (fun a => a.startLoc)).map
    (fun startLoc => distanceApprox (headProfile actors) jobLoc startLoc))).min?

/-- One activity's term of `compute_route_penalty`'s accumulation. -/
def vehicleActivityPenalty (distanceApprox : ℕ → ℕ → ℕ → ℚ) (actors : List VActor)
    (compat : JobDef → VActor → Bool) (profile assignedStart : ℕ) (a : Activity) : ℚ :=
  match a.job with
  | none => 0
  | some single =>
    let jobLoc := a.place.location
    let distAssigned := distanceApprox profile jobLoc assignedStart
    let distNearest :=
      (find_nearest_compatible_vehicle_dist distanceApprox jobLoc single actors
        compat).getD distAssigned
    max (distAssigned - distNearest) 0

/-- `VehicleDistanceObjective::compute_route_penalty` (identical body in the state). -/
def compute_route_penalty (distanceApprox : ℕ → ℕ → ℕ → ℚ) (actors : List VActor)
    (compat : JobDef → VActor → Bool) (route : VRoute) : ℚ :=
  match route.actor.startLoc with
  | none => 0
  | some assignedStart =>
    route.tour.foldl
      (fun acc a => acc +
        vehicleActivityPenalty distanceApprox actors compat route.actor.profile
          assignedStart a) 0

/-- One job's penalty term, keyed by (job location, job): assigned distance minus
nearest-compatible distance, clamped at zero. -/
def vehicleJobPenalty (distanceApprox : ℕ → ℕ → ℕ → ℚ) (actors : List VActor)
    (compat : JobDef → VActor → Bool) (profile assignedStart : ℕ) (p : ℕ × JobDef) : ℚ :=
  let distAssigned := distanceApprox profile p.1 assignedStart
  let distNearest :=
    (find_nearest_compatible_vehicle_dist distanceApprox p.1 p.2 actors compat).getD
      distAssigned
  max (distAssigned - distNearest) 0

/-- The route penalty written as the spec writes it — a sum over the route's job
activities — with the nearest-compatible distance computed as the code computes it
(first configured actor's profile). -/
def specVehicleRoutePenaltyFirstProfile (distanceApprox : ℕ → ℕ → ℕ → ℚ)
    (actors : List VActor) (compat : JobDef → VActor → Bool) (route : VRoute) : ℚ :=
  match route.actor.startLoc with
  | none => 0
  | some assignedStart =>
    ((route.tour.filterMap (fun a => a.job.map (fun j => (a.place.location, j)))).map
      (vehicleJobPenalty distanceApprox actors compat route.actor.profile
        assignedStart)).sum

/-- The penalty formula as the spec states it: the nearest-compatible distance is
computed with the assigned vehicle's profile. -/
def specNearestCompatibleDist (distanceApprox : ℕ → ℕ → ℕ → ℚ) (assignedProfile : ℕ)
    (jobLoc : ℕ) (job : JobDef) (actors : List VActor)
    (compat : JobDef → VActor → Bool) : Option ℚ :=
  ((((actors.filter (fun a => compat job a)).filterMap (fun a => a.startLoc)).map
    (fun startLoc => distanceApprox assignedProfile jobLoc startLoc))).min?

/-- The route penalty as the spec states it (assigned profile everywhere). -/
def specVehicleRoutePenalty (distanceApprox : ℕ → ℕ → ℕ → ℚ) (actors : List VActor)
    (compat : JobDef → VActor → Bool) (route : VRoute) : ℚ :=
  match route.actor.startLoc with
  | none => 0
  | some assignedStart =>
    route.tour.foldl
      (fun acc a =>
        acc + match a.job with
        | none => 0
        | some single =>
          let jobLoc := a.place.location
          let distAssigned := distanceApprox route.actor.profile jobLoc assignedStart
          let distNearest :=
            (specNearestCompatibleDist distanceApprox route.actor.profile jobLoc single
              actors compat).getD distAssigned
          max (distAssigned - distNearest) 0) 0

/-! ## `checker/breaks.rs` -/

/-- `VehicleOptionalBreakPolicy`. -/
inductive VehicleOptionalBreakPolicy where
  | skipIfNoIntersection
  | skipIfArrivalBeforeEnd
deriving DecidableEq

/-- `VehicleOptionalBreakTime`. -/
inductive VehicleOptionalBreakTime where
  | timeWindow (s e : ℚ)
  | timeOffset (offsets : List ℚ)
deriving DecidableEq

/-- `VehicleRequiredBreakTime`. -/
inductive VehicleRequiredBreakTime where
  | offsetTime (earliest latest : ℚ)
  | exactTime (earliest latest : ℚ)
deriving DecidableEq

/-- `VehicleBreak`. -/
inductive VehicleBreak where
  | optional (policy : Option VehicleOptionalBreakPolicy) (time : VehicleOptionalBreakTime)
  | required (time : VehicleRequiredBreakTime) (duration : ℚ)
deriving DecidableEq

/-- `get_break_time_window`, with the tour's first-stop departure and the resolved
offset anchor (first job arrival or departure, per the cost span) already parsed. -/
def get_break_time_window (departure offsetAnchor : ℚ) :
    VehicleBreak → Option TimeWindow
  | .optional _ (.timeWindow s e) => some ⟨s, e⟩
  | .optional _ (.timeOffset offsets) =>
    if offsets.length = 2 then
      match offsets.head?, offsets.getLast? with
      | some f, some l => some ⟨departure + f, departure + l⟩
      | _, _ => none
    else none
  | .required time dur =>
    match time with
    | .offsetTime earliest latest => some ⟨offsetAnchor + earliest, offsetAnchor + latest + dur⟩
    | .exactTime earliest latest => some ⟨earliest, latest + dur⟩

/-- The `should_assign` decision of `check_break_assignment`'s expected-count fold. -/
def shouldAssignBreak (departure arrival offsetAnchor : ℚ) (vb : VehicleBreak) : Bool :=
  let tourTw : TimeWindow := ⟨departure, arrival⟩
  match get_break_time_window departure offsetAnchor vb with
  | none => false
  | some breakTw =>
    match vb with
    | .optional policy _ =>
      match policy.getD .skipIfNoIntersection with
      | .skipIfNoIntersection => decide (breakTw.start < arrival)
      | .skipIfArrivalBeforeEnd => decide (breakTw.end_ < arrival)
    | .required _ _ => breakTw.intersects tourTw && decide (breakTw.end_ < tourTw.end_)

/-- The `expected_break_count` fold of `check_break_assignment`. -/
def expectedBreakCount (departure arrival offsetAnchor : ℚ)
    (breaks : List VehicleBreak) : ℕ :=
  breaks.foldl
    (fun acc vb => if shouldAssignBreak departure arrival offsetAnchor vb then acc + 1 else acc) 0

/-!
## Spec-side definitions

`segmentDistance` renders the spec's "sum of transport distances over consecutive
activities"; `specCriticalDepartures` renders the claim's critical-candidate set with
*every* offset span of a place contributing; `specVehicleRoutePenalty` above renders
the spec's vehicle-distance formula.  `noOffsetTour` is the side condition used by the
amended departure-repair claim.
-/

/-- Sum of leg distances over consecutive activities of a list, each leg priced at the
stored departure of its origin. -/
def segmentDistance (c : Collab) : List Activity → ℚ
  | a :: b :: rest =>
    c.distance a.place.location b.place.location (.departure a.schedule.departure) +
      segmentDistance c (b :: rest)
  | _ => 0

/-- Whether a job/place-index pair selects a place definition without offset spans. -/
def noOffsetJobIdx : Option JobDef → ℕ → Bool
  | none, _ => true
  | some j, idx =>
    match j.places.get? idx with
    | none => true
    | some pd => pd.times.all (fun t => !t.isOffset)

/-- Whether the activity's place definition has no offset time span. -/
def noOffsetActivity (a : Activity) : Bool :=
  noOffsetJobIdx a.job a.place.idx

/-- Whether no place definition referenced by the tour has an offset time span. -/
def noOffsetTour (r : Route) : Bool :=
  r.tour.all noOffsetActivity

/-- All offset spans of all route activities, with their place durations (the claim's
reading of the critical-candidate inputs: *every* offset span contributes). -/
def allOffsetTriples (r : Route) : List (ℚ × ℚ × ℚ) :=
  r.tour.flatMap (fun a =>
    ((a.job.bind (fun j => j.places.get? a.place.idx)).map (fun pd =>
      pd.times.filterMap (fun t =>
        match t with
        | .offset s e => some (s, e, pd.duration)
        | .window _ => none))).getD [])

/-- The critical-candidate set as the claim states it: one family of candidates per
offset span (not merely per activity). -/
def specCriticalDepartures (r : Route) (cur upper : ℚ) : List ℚ :=
  (allOffsetTriples r).flatMap (fun triple =>
    let (offStart, offEnd, breakDur) := triple
    (job_tw_boundaries r).flatMap (fun b =>
      push_candidate cur upper (b - offEnd - breakDur) ++
      push_candidate cur upper (b - offEnd) ++
      push_candidate cur upper (b - offStart)))

/-!
## Concrete instances used by witnesses and counterexamples
-/

/-- The timestamp carried by a `TravelTime` hint. -/
def tvOf : TravelTime → ℚ
  | .departure t => t
  | .arrival t => t

/-- `estimate_departure` following the spec §4.2 contract with no reserved times:
reject when the window end precedes the arrival, else depart at service start plus
duration. -/
def estDepContract : Place → ℚ → CtlFlow := fun p arr =>
  if p.time.end_ < arr then .brk arr else .cont (max arr p.time.start + p.duration)

/-- A simple `estimate_arrival`: latest departure minus duration, clamped to the
window end. -/
def estArrSimple : Place → ℚ → CtlFlow := fun p latestDep =>
  .cont (min (latestDep - p.duration) p.time.end_)

/-- A benign collaborator: unit travel duration and distance, contract estimations. -/
def cUnit : Collab where
  duration := fun _ _ _ => 1
  distance := fun _ _ _ => 1
  estimateDeparture := estDepContract
  estimateArrival := estArrSimple

/-- A jobless depot start activity at location 0 with departure 0. -/
def aStart : Activity :=
  { place := { idx := 0, location := 0, duration := 0, time := ⟨0, 0⟩ },
    schedule := ⟨0, 0⟩, job := none }

/-- A plain job activity at location 1 with a wide absolute window. -/
def aJobPlain : Activity :=
  { place := { idx := 0, location := 1, duration := 0, time := ⟨0, 1000⟩ },
    schedule := ⟨1, 1⟩,
    job := some { places := [{ times := [.window ⟨0, 1000⟩], duration := 0 }] } }

/-- A jobless depot end activity at location 0. -/
def aEnd : Activity :=
  { place := { idx := 0, location := 0, duration := 0, time := ⟨0, 1000⟩ },
    schedule := ⟨2, 2⟩, job := none }

/-- An actor detail with a depot at location 0, open ended, shift end `floatMax`. -/
def detail0 : ActorDetail :=
  { start := some { location := 0, earliest := some 0, latest := none },
    end_ := none, timeEnd := floatMax }

/-- An empty route state. -/
def st0 : RouteState :=
  { latestArrivals := [], waitingTimes := [], totalDistance := none,
    totalDuration := none, limitDuration := none }

/-- A `FirstJobToLastJob` route used to exercise the anchor loop. -/
def rcFJ : RouteContext :=
  { route := { costSpanDim := some .firstJobToLastJob, detail := detail0,
               tour := [aStart, aJobPlain] },
    state := st0 }

/-- A closed `DepotToDepot` tour used to exercise the statistics table. -/
def rcStats : RouteContext :=
  { route := { costSpanDim := none, detail := detail0,
               tour := [aStart, aJobPlain, aEnd] },
    state := st0 }

/-- A no-offset-span route used to witness the departure-repair claim. -/
def rcNoOff : RouteContext :=
  { route := { costSpanDim := none, detail := detail0,
               tour := [aStart, aJobPlain] },
    state := st0 }

/-- A job activity whose resolved window is the offset span `(2, 3)` materialised at
anchor 0. -/
def aOff : Activity :=
  { place := { idx := 0, location := 1, duration := 0, time := ⟨2, 3⟩ },
    schedule := ⟨0, 0⟩,
    job := some { places := [{ times := [.offset 2 3], duration := 0 }] } }

/-- A route carrying `aOff`, anchored at start departure 0. -/
def rcOff : RouteContext :=
  { route := { costSpanDim := none, detail := detail0, tour := [aStart, aOff] },
    state := st0 }

/-- `estimate_departure` following the spec §4.2 contract with one reserved time span
`[5, 6)` of duration 50: service intersecting it is extended by 50, and the extension
rejects when it pushes service end past the window end. -/
def estDepReserved : Place → ℚ → CtlFlow := fun p arr =>
  let serviceStart := max arr p.time.start
  let base := serviceStart + p.duration
  if p.time.end_ < arr then .brk arr
  else if arr < 6 ∧ 5 < base then
    (if p.time.end_ < base + 50 then .brk (base + 50) else .cont (base + 50))
  else .cont base

/-- A collaborator with travel duration 4 and the reserved-time estimation. -/
def cRes : Collab where
  duration := fun _ _ _ => 4
  distance := fun _ _ _ => 0
  estimateDeparture := estDepReserved
  estimateArrival := estArrSimple

/-- A job activity at location 1 with window `[0, 100]` and service duration 1. -/
def aTgt : Activity :=
  { place := { idx := 0, location := 1, duration := 1, time := ⟨0, 100⟩ },
    schedule := ⟨0, 0⟩,
    job := some { places := [{ times := [.window ⟨0, 100⟩], duration := 1 }] } }

/-- An activity context inserting `aTgt` as both first and last job after the depot. -/
def actxRes : ActivityContext :=
  { index := 0, prev := aStart, target := aTgt, next := none }

/-- A single job with a wide window, used by the vehicle-distance instances. -/
def jobX : JobDef := { places := [{ times := [.window ⟨0, 1000⟩], duration := 0 }] }

/-- A job activity at location 10 carrying `jobX`. -/
def actX : Activity :=
  { place := { idx := 0, location := 10, duration := 0, time := ⟨0, 1000⟩ },
    schedule := ⟨0, 0⟩, job := some jobX }

/-- A profile-sensitive approximated distance: profile 1 prices returns to the depot
at 10 and to location 3 at 7; any other profile prices everything at 100. -/
def dApproxX : ℕ → ℕ → ℕ → ℚ := fun p _ y =>
  if p = 1 then (if y = 0 then 10 else 7) else 100

/-- The assigned actor: depot 0, profile 1. -/
def vActorA : VActor := { startLoc := some 0, profile := 1 }

/-- A fleet actor with a different profile: depot 3, profile 2. -/
def vActorB : VActor := { startLoc := some 3, profile := 2 }

/-- The route of `vActorA` serving `actX`. -/
def vRouteX : VRoute := { actor := vActorA, tour := [actX] }

/-- An always-true compatibility predicate. -/
def compatAll : JobDef → VActor → Bool := fun _ _ => true

/-- A collaborator whose travel times depend on the departure time: leaving the depot
at time 0 reaches location 1 in 5, leaving later takes 50; leaving location 1 at 15 or
later reaches location 2 instantly, leaving earlier takes 2000. -/
def cAdv : Collab where
  duration := fun f t tt =>
    let dep := tvOf tt
    if f = 0 ∧ t = 1 then (if dep ≤ 0 then 5 else 50)
    else if f = 1 ∧ t = 2 then (if 15 ≤ dep then 0 else 2000)
    else 0
  distance := fun _ _ _ => 0
  estimateDeparture := fun p arr =>
    if p.time.end_ < arr then .brk arr else .cont (max arr p.time.start + p.duration)
  estimateArrival := fun p ld => .cont (min (ld - p.duration) p.time.end_)

/-- A job activity at location 1 whose place definition has the offset span `(5, 5)`
(materialised at anchor 0 as the window `⟨5, 5⟩`, rebound on anchor changes) and a
second, window span. -/
def aOne : Activity :=
  { place := { idx := 0, location := 1, duration := 0, time := ⟨15, 15⟩ },
    schedule := ⟨5, 15⟩,
    job := some { places := [{ times := [.offset 5 5, .window ⟨15, 15⟩], duration := 0 }] } }

/-- A job activity at location 2 with the offset span `(15, 15)` and a wide window span. -/
def aTwo : Activity :=
  { place := { idx := 0, location := 2, duration := 0, time := ⟨0, 1000⟩ },
    schedule := ⟨15, 15⟩,
    job := some { places := [{ times := [.offset 15 15, .window ⟨0, 1000⟩], duration := 0 }] } }

/-- A feasible route over `cAdv` at departure 0 whose activities carry offset spans. -/
def rcAdv : RouteContext :=
  { route := { costSpanDim := none, detail := detail0, tour := [aStart, aOne, aTwo] },
    state := st0 }

/-- Like `aTwo`, but with a second offset span `(8, 8)` that the claim's candidate set
draws from and the code ignores. -/
def aTwoB : Activity :=
  { place := { idx := 0, location := 2, duration := 0, time := ⟨0, 1000⟩ },
    schedule := ⟨15, 15⟩,
    job := some { places :=
      [{ times := [.offset 15 15, .offset 8 8, .window ⟨0, 1000⟩], duration := 0 }] } }

/-- `rcAdv` with `aTwo` replaced by `aTwoB`: same schedules, one more offset span. -/
def rcC2 : RouteContext :=
  { route := { costSpanDim := none, detail := detail0, tour := [aStart, aOne, aTwoB] },
    state := st0 }

/-!
## Structural lemmas about the schedule update pipeline
-/

theorem forwardPass_place_map (c : Collab) (loc : ℕ) (dep : ℚ) (l : List Activity) :
    (forwardPass c loc dep l).map (fun a => a.place) = l.map (fun a => a.place) := by
  induction l generalizing loc dep with
  | nil => rfl
  | cons a rest ih => simp [forwardPass, ih]

theorem forwardPass_jobIdx_map (c : Collab) (loc : ℕ) (dep : ℚ) (l : List Activity) :
    (forwardPass c loc dep l).map (fun a => (a.job, a.place.idx)) =
      l.map (fun a => (a.job, a.place.idx)) := by
  induction l generalizing loc dep with
  | nil => rfl
  | cons a rest ih => simp [forwardPass, ih]

theorem forwardPass_length (c : Collab) (loc : ℕ) (dep : ℚ) (l : List Activity) :
    (forwardPass c loc dep l).length = l.length := by
  induction l generalizing loc dep with
  | nil => rfl
  | cons a rest ih => simp [forwardPass, ih]

theorem update_schedules_costSpanDim (c : Collab) (r : Route) :
    (update_schedules c r).costSpanDim = r.costSpanDim := by
  unfold update_schedules; cases r.tour <;> rfl

theorem update_schedules_detail (c : Collab) (r : Route) :
    (update_schedules c r).detail = r.detail := by
  unfold update_schedules; cases r.tour <;> rfl

theorem update_schedules_place_map (c : Collab) (r : Route) :
    (update_schedules c r).tour.map (fun a => a.place) = r.tour.map (fun a => a.place) := by
  unfold update_schedules
  cases h : r.tour with
  | nil => simp [h]
  | cons s rest => simp [forwardPass_place_map]

theorem update_schedules_jobIdx_map (c : Collab) (r : Route) :
    (update_schedules c r).tour.map (fun a => (a.job, a.place.idx)) =
      r.tour.map (fun a => (a.job, a.place.idx)) := by
  unfold update_schedules
  cases h : r.tour with
  | nil => simp [h]
  | cons s rest => simp [forwardPass_jobIdx_map]

theorem update_schedules_length (c : Collab) (r : Route) :
    (update_schedules c r).tour.length = r.tour.length := by
  unfold update_schedules
  cases h : r.tour with
  | nil => simp [h]
  | cons s rest => simp [forwardPass_length]

theorem update_schedules_startDeparture (c : Collab) (r : Route) :
    (update_schedules c r).startDeparture = r.startDeparture := by
  unfold update_schedules Route.startDeparture
  cases h : r.tour with
  | nil => simp [h]
  | cons s rest => simp [h]

theorem rebindActivity_schedule (x y : ℚ) (a : Activity) :
    (rebindActivity x y a).schedule = a.schedule := by
  unfold rebindActivity
  split
  · rfl
  · split
    · rfl
    · split
      · rfl
      · rfl

theorem rebindActivity_jobIdx (x y : ℚ) (a : Activity) :
    ((rebindActivity x y a).job, (rebindActivity x y a).place.idx) = (a.job, a.place.idx) := by
  unfold rebindActivity
  split
  · rfl
  · split
    · rfl
    · split
      · rfl
      · rfl

theorem recompute_costSpanDim (r : Route) (x y : ℚ) :
    (recompute_offset_time_windows r x y).costSpanDim = r.costSpanDim := by
  unfold recompute_offset_time_windows; split <;> rfl

theorem recompute_detail (r : Route) (x y : ℚ) :
    (recompute_offset_time_windows r x y).detail = r.detail := by
  unfold recompute_offset_time_windows; split <;> rfl

theorem recompute_schedule_map (r : Route) (x y : ℚ) :
    (recompute_offset_time_windows r x y).tour.map (fun a => a.schedule) =
      r.tour.map (fun a => a.schedule) := by
  unfold recompute_offset_time_windows
  split
  · rfl
  · simp [rebindActivity_schedule]

theorem recompute_jobIdx_map (r : Route) (x y : ℚ) :
    (recompute_offset_time_windows r x y).tour.map (fun a => (a.job, a.place.idx)) =
      r.tour.map (fun a => (a.job, a.place.idx)) := by
  unfold recompute_offset_time_windows
  split
  · rfl
  · simp [rebindActivity_jobIdx]

theorem recompute_length (r : Route) (x y : ℚ) :
    (recompute_offset_time_windows r x y).tour.length = r.tour.length := by
  unfold recompute_offset_time_windows
  split
  · rfl
  · simp

theorem recompute_startDeparture (r : Route) (x y : ℚ) :
    (recompute_offset_time_windows r x y).startDeparture = r.startDeparture := by
  unfold recompute_offset_time_windows Route.startDeparture
  split
  · rfl
  · cases h : r.tour with
    | nil => simp [h]
    | cons s rest => simp [h, rebindActivity_schedule]

theorem anchorLoop_costSpanDim (c : Collab) (n : ℕ) (r : Route) :
    ((anchorLoop c n r).1).costSpanDim = r.costSpanDim := by
  induction n generalizing r with
  | zero => rfl
  | succ m ih =>
    unfold anchorLoop
    dsimp only
    split
    · exact update_schedules_costSpanDim c r
    · exact (ih _).trans (update_schedules_costSpanDim c r)

theorem anchorLoop_detail (c : Collab) (n : ℕ) (r : Route) :
    ((anchorLoop c n r).1).detail = r.detail := by
  induction n generalizing r with
  | zero => rfl
  | succ m ih =>
    unfold anchorLoop
    dsimp only
    split
    · exact update_schedules_detail c r
    · exact (ih _).trans (update_schedules_detail c r)

theorem anchorLoop_place_map (c : Collab) (n : ℕ) (r : Route) :
    ((anchorLoop c n r).1).tour.map (fun a => a.place) = r.tour.map (fun a => a.place) := by
  induction n generalizing r with
  | zero => rfl
  | succ m ih =>
    unfold anchorLoop
    dsimp only
    split
    · exact update_schedules_place_map c r
    · exact (ih _).trans (update_schedules_place_map c r)

theorem anchorLoop_jobIdx_map (c : Collab) (n : ℕ) (r : Route) :
    ((anchorLoop c n r).1).tour.map (fun a => (a.job, a.place.idx)) =
      r.tour.map (fun a => (a.job, a.place.idx)) := by
  induction n generalizing r with
  | zero => rfl
  | succ m ih =>
    unfold anchorLoop
    dsimp only
    split
    · exact update_schedules_jobIdx_map c r
    · exact (ih _).trans (update_schedules_jobIdx_map c r)

theorem anchorLoop_length (c : Collab) (n : ℕ) (r : Route) :
    ((anchorLoop c n r).1).tour.length = r.tour.length := by
  induction n generalizing r with
  | zero => rfl
  | succ m ih =>
    unfold anchorLoop
    dsimp only
    split
    · exact update_schedules_length c r
    · exact (ih _).trans (update_schedules_length c r)

theorem anchorLoop_startDeparture (c : Collab) (n : ℕ) (r : Route) :
    ((anchorLoop c n r).1).startDeparture = r.startDeparture := by
  induction n generalizing r with
  | zero => rfl
  | succ m ih =>
    unfold anchorLoop
    dsimp only
    split
    · exact update_schedules_startDeparture c r
    · exact (ih _).trans (update_schedules_startDeparture c r)

theorem update_states_route (c : Collab) (rc : RouteContext) :
    (update_states c rc).route = rc.route := rfl

theorem update_statistics_route (c : Collab) (rc : RouteContext) :
    (update_statistics c rc).route = rc.route := by
  unfold update_statistics
  dsimp only
  split <;> rfl

theorem update_route_schedule_route (c : Collab) (rc : RouteContext) :
    (update_route_schedule c rc).route =
      if needsFixedPoint rc.route then (anchorLoop c 3 (update_schedules c rc.route)).1
      else update_schedules c rc.route := by
  unfold update_route_schedule updateRouteScheduleT
  dsimp only
  rw [update_statistics_route, update_states_route]
  by_cases h : needsFixedPoint rc.route <;> simp [h]

theorem update_route_schedule_startDeparture (c : Collab) (rc : RouteContext) :
    (update_route_schedule c rc).route.startDeparture = rc.route.startDeparture := by
  rw [update_route_schedule_route]
  by_cases h : needsFixedPoint rc.route <;>
    simp [h, anchorLoop_startDeparture, update_schedules_startDeparture]

theorem update_route_schedule_place_map (c : Collab) (rc : RouteContext) :
    (update_route_schedule c rc).route.tour.map (fun a => a.place) =
      rc.route.tour.map (fun a => a.place) := by
  rw [update_route_schedule_route]
  by_cases h : needsFixedPoint rc.route <;>
    simp [h, anchorLoop_place_map, update_schedules_place_map]

theorem update_route_schedule_jobIdx_map (c : Collab) (rc : RouteContext) :
    (update_route_schedule c rc).route.tour.map (fun a => (a.job, a.place.idx)) =
      rc.route.tour.map (fun a => (a.job, a.place.idx)) := by
  rw [update_route_schedule_route]
  by_cases h : needsFixedPoint rc.route <;>
    simp [h, anchorLoop_jobIdx_map, update_schedules_jobIdx_map]

theorem update_route_schedule_length (c : Collab) (rc : RouteContext) :
    (update_route_schedule c rc).route.tour.length = rc.route.tour.length := by
  rw [update_route_schedule_route]
  by_cases h : needsFixedPoint rc.route <;>
    simp [h, anchorLoop_length, update_schedules_length]

theorem update_route_schedule_costSpanDim (c : Collab) (rc : RouteContext) :
    (update_route_schedule c rc).route.costSpanDim = rc.route.costSpanDim := by
  rw [update_route_schedule_route]
  by_cases h : needsFixedPoint rc.route <;>
    simp [h, anchorLoop_costSpanDim, update_schedules_costSpanDim]

theorem update_route_schedule_detail (c : Collab) (rc : RouteContext) :
    (update_route_schedule c rc).route.detail = rc.route.detail := by
  rw [update_route_schedule_route]
  by_cases h : needsFixedPoint rc.route <;>
    simp [h, anchorLoop_detail, update_schedules_detail]

theorem setStartDeparture_startDeparture (r : Route) (d : ℚ) (h : r.tour ≠ []) :
    (setStartDeparture r d).startDeparture = d := by
  unfold setStartDeparture Route.startDeparture
  cases ht : r.tour with
  | nil => exact absurd ht h
  | cons s rest => simp [ht]

theorem setStartDeparture_place_map (r : Route) (d : ℚ) :
    (setStartDeparture r d).tour.map (fun a => a.place) = r.tour.map (fun a => a.place) := by
  unfold setStartDeparture
  cases ht : r.tour with
  | nil => simp [ht]
  | cons s rest => simp [ht]

theorem setStartDeparture_jobIdx_map (r : Route) (d : ℚ) :
    (setStartDeparture r d).tour.map (fun a => (a.job, a.place.idx)) =
      r.tour.map (fun a => (a.job, a.place.idx)) := by
  unfold setStartDeparture
  cases ht : r.tour with
  | nil => simp [ht]
  | cons s rest => simp [ht]

theorem setStartDeparture_length (r : Route) (d : ℚ) :
    (setStartDeparture r d).tour.length = r.tour.length := by
  unfold setStartDeparture
  cases ht : r.tour with
  | nil => simp [ht]
  | cons s rest => simp [ht]

theorem setStartDeparture_costSpanDim (r : Route) (d : ℚ) :
    (setStartDeparture r d).costSpanDim = r.costSpanDim := by
  unfold setStartDeparture
  cases ht : r.tour <;> rfl

theorem setStartDeparture_detail (r : Route) (d : ℚ) :
    (setStartDeparture r d).detail = r.detail := by
  unfold setStartDeparture
  cases ht : r.tour <;> rfl

theorem urd_startDeparture (c : Collab) (rc : RouteContext) (d : ℚ)
    (h : rc.route.tour ≠ []) :
    (update_route_departure c rc d).route.startDeparture = d := by
  unfold update_route_departure
  dsimp only
  rw [update_route_schedule_startDeparture]
  show (recompute_offset_time_windows (setStartDeparture rc.route d) _ _).startDeparture = d
  rw [recompute_startDeparture, setStartDeparture_startDeparture _ _ h]

theorem urd_jobIdx_map (c : Collab) (rc : RouteContext) (d : ℚ) :
    (update_route_departure c rc d).route.tour.map (fun a => (a.job, a.place.idx)) =
      rc.route.tour.map (fun a => (a.job, a.place.idx)) := by
  unfold update_route_departure
  dsimp only
  rw [update_route_schedule_jobIdx_map]
  show (recompute_offset_time_windows (setStartDeparture rc.route d) _ _).tour.map _ = _
  rw [recompute_jobIdx_map, setStartDeparture_jobIdx_map]

theorem urd_length (c : Collab) (rc : RouteContext) (d : ℚ) :
    (update_route_departure c rc d).route.tour.length = rc.route.tour.length := by
  unfold update_route_departure
  dsimp only
  rw [update_route_schedule_length]
  show (recompute_offset_time_windows (setStartDeparture rc.route d) _ _).tour.length = _
  rw [recompute_length, setStartDeparture_length]

theorem urd_costSpanDim (c : Collab) (rc : RouteContext) (d : ℚ) :
    (update_route_departure c rc d).route.costSpanDim = rc.route.costSpanDim := by
  unfold update_route_departure
  dsimp only
  rw [update_route_schedule_costSpanDim]
  show (recompute_offset_time_windows (setStartDeparture rc.route d) _ _).costSpanDim = _
  rw [recompute_costSpanDim, setStartDeparture_costSpanDim]

theorem urd_detail (c : Collab) (rc : RouteContext) (d : ℚ) :
    (update_route_departure c rc d).route.detail = rc.route.detail := by
  unfold update_route_departure
  dsimp only
  rw [update_route_schedule_detail]
  show (recompute_offset_time_windows (setStartDeparture rc.route d) _ _).detail = _
  rw [recompute_detail, setStartDeparture_detail]

/-!
## Claim C1: pass counts of the anchor fixed-point loop
-/

theorem anchorLoop_trace_spec (c : Collab) (n : ℕ) :
    ∀ (r : Route), 1 ≤ n →
      1 ≤ (anchorLoop c n r).2.length ∧ (anchorLoop c n r).2.length ≤ n ∧
      ∃ p, (anchorLoop c n r).2.getLast? = some p ∧
        (|p.2 - p.1| ≤ epsTiny ∨ (anchorLoop c n r).2.length = n) := by
  induction n with
  | zero => intro r h; exact absurd h (by omega)
  | succ m ih =>
    intro r _
    unfold anchorLoop
    dsimp only
    by_cases hc : |get_offset_anchor (update_schedules c r) - get_offset_anchor r| ≤ epsTiny
    · rw [if_pos hc]
      exact ⟨by simp, by simp,
        ⟨(get_offset_anchor r, get_offset_anchor (update_schedules c r)), by simp, Or.inl hc⟩⟩
    · rw [if_neg hc]
      rcases Nat.eq_zero_or_pos m with hm | hm

      · subst hm
        refine ⟨by simp [anchorLoop], by simp [anchorLoop],
          ⟨(get_offset_anchor r, get_offset_anchor (update_schedules c r)),
            by simp [anchorLoop], Or.inr (by simp [anchorLoop])⟩⟩
      · obtain ⟨h1, h2, p, hp, hd⟩ := ih (update_schedules c r) hm
        refine ⟨by simp, by simp; omega, p, ?_, ?_⟩
        · have hne : (anchorLoop c m (update_schedules c r)).2 ≠ [] := by
            intro he; rw [he] at h1; simp at h1
          obtain ⟨q, t, hqt⟩ := List.exists_cons_of_ne_nil hne
          rw [hqt] at hp
          rw [hqt]
          simpa using hp
        · rcases hd with hd | hd
          · exact Or.inl hd
          · exact Or.inr (by simp [hd])

/-- C1: for `FirstJobToDepot`/`FirstJobToLastJob` cost spans, `update_route_schedule`
runs the forward pass once and then between 1 and `K = 3` fixed-point iterations, each
recording the anchor before and after one further forward pass; it therefore performs
between 2 and 4 forward passes, and on loop exit either the last two anchors recorded
differ by at most `ε = 1e-6` or all 3 iterations were executed.  For
`DepotToDepot`/`DepotToLastJob` it performs exactly one forward pass and no
iteration. -/
theorem claim_C1_anchor_loop_pass_count (c : Collab) (rc : RouteContext) :
    (updateRouteScheduleT c rc).2.1 = 1 + (updateRouteScheduleT c rc).2.2.length ∧
    (updateRouteScheduleT c rc).2.1 ≤ 4 ∧
    ((rc.route.costSpan = .depotToDepot ∨ rc.route.costSpan = .depotToLastJob) →
      (updateRouteScheduleT c rc).2.1 = 1 ∧ (updateRouteScheduleT c rc).2.2 = []) ∧
    ((rc.route.costSpan = .firstJobToDepot ∨ rc.route.costSpan = .firstJobToLastJob) →
      2 ≤ (updateRouteScheduleT c rc).2.1 ∧
      1 ≤ (updateRouteScheduleT c rc).2.2.length ∧
      (updateRouteScheduleT c rc).2.2.length ≤ 3 ∧
      ∃ p, (updateRouteScheduleT c rc).2.2.getLast? = some p ∧
        (|p.2 - p.1| ≤ epsTiny ∨ (updateRouteScheduleT c rc).2.2.length = 3)) := by
  have hfp : needsFixedPoint rc.route =
      (decide (rc.route.costSpan = .firstJobToDepot) ||
        decide (rc.route.costSpan = .firstJobToLastJob)) := by
    unfold needsFixedPoint
    rcases rc.route.costSpan <;> simp
  unfold updateRouteScheduleT
  dsimp only
  by_cases h : needsFixedPoint rc.route
  · rw [if_pos h]
    obtain ⟨h1, h2, p, hp, hd⟩ :=
      anchorLoop_trace_spec c 3 (update_schedules c rc.route) (by omega)
    refine ⟨rfl, by omega, ?_, fun _ => ⟨by omega, h1, h2, p, hp, hd⟩⟩
    intro hspan
    rw [hfp] at h
    rcases hspan with hs | hs <;> rw [hs] at h <;> simp at h
  · rw [if_neg h]
    refine ⟨rfl, by simp, fun _ => ⟨rfl, rfl⟩, ?_⟩
    intro hspan
    rw [hfp] at h
    rcases hspan with hs | hs <;> rw [hs] at h <;> simp at h

/-- Witness for C1 at a concrete `FirstJobToLastJob` route. -/
theorem claim_C1_anchor_loop_pass_count_witness :
    2 ≤ (updateRouteScheduleT cUnit rcFJ).2.1 ∧ (updateRouteScheduleT cUnit rcFJ).2.1 ≤ 4 := by
  have h := claim_C1_anchor_loop_pass_count cUnit rcFJ
  exact ⟨(h.2.2.2 (Or.inr rfl)).1, h.2.1⟩

/-!
## Claim C3: the statistics table
-/

theorem update_statistics_totals (c : Collab) (rc : RouteContext) (s e : Activity)
    (hs : rc.route.tour.head? = some s) (he : rc.route.tour.getLast? = some e) :
    (update_statistics c rc).state.totalDuration =
      some (calculate_route_duration rc.route rc.route.costSpan rc.route.tour.length s e) ∧
    (update_statistics c rc).state.totalDistance =
      some (calculate_route_distance c rc.route rc.route.costSpan rc.route.tour.length) := by
  unfold update_statistics
  dsimp only
  rw [hs, he]
  exact ⟨rfl, rfl⟩

theorem update_route_schedule_eq_statistics (c : Collab) (rc : RouteContext) :
    update_route_schedule c rc = update_statistics c (update_states c
      { rc with route :=
          if needsFixedPoint rc.route then (anchorLoop c 3 (update_schedules c rc.route)).1
          else update_schedules c rc.route }) := by
  unfold update_route_schedule updateRouteScheduleT
  dsimp only
  by_cases h : needsFixedPoint rc.route <;> simp [h]

theorem distFold_segment (c : Collab) (l : List Activity) :
    ∀ (a : Activity) (acc : ℚ),
      distFold c a.place.location a.schedule.departure acc l =
        acc + segmentDistance c (a :: l) := by
  induction l with
  | nil => intro a acc; simp [distFold, segmentDistance]
  | cons b rest ih =>
    intro a acc
    show distFold c b.place.location b.schedule.departure
        (acc + c.distance a.place.location b.place.location
          (.departure a.schedule.departure)) rest = _
    rw [ih b]
    show _ = acc + (c.distance a.place.location b.place.location
      (.departure a.schedule.departure) + segmentDistance c (b :: rest))
    ring

theorem drop_cons_of_get? {l : List Activity} {n : ℕ} {a : Activity}
    (h : l.get? n = some a) : l.drop n = a :: l.drop (n + 1) := by
  have hn : n < l.length := by
    by_contra hn
    rw [List.get?_eq_none.2 (by omega)] at h
    exact Option.noConfusion h
  have ha : l[n] = a := by
    have := List.get?_eq_getElem? l n
    rw [this, List.getElem?_eq_getElem hn] at h
    exact Option.some.inj h
  rw [List.drop_eq_getElem_cons hn, ha]

theorem has_jobs_one_lt (r : Route) (total : ℕ) (h : has_jobs r total = true) :
    1 < total := by
  unfold has_jobs at h
  dsimp only at h
  split at h <;> simp at h <;> omega

theorem get_last_job_idx_ge_one (r : Route) (total k : ℕ)
    (h : get_last_job_idx r total = some k) : 1 ≤ k ∧ k < total := by
  unfold get_last_job_idx at h
  split at h
  · exact Option.noConfusion h
  · rename_i htotal
    split at h
    · exact Option.noConfusion h
    · split at h
      · split at h
        · rename_i h2
          have := Option.some.inj h
          omega
        · exact Option.noConfusion h
      · have := Option.some.inj h
        omega

theorem calc_dist_range (c : Collab) (r : Route) (si ei : ℕ) (sa : Activity)
    (hsa : r.tour.get? si = some sa) (hlt : si < ei) :
    distFold c sa.place.location sa.schedule.departure 0
        ((r.tour.drop (si + 1)).take (ei - si - 1)) =
      segmentDistance c ((r.tour.drop si).take (ei - si)) := by
  rw [distFold_segment, drop_cons_of_get? hsa]
  have : ei - si = (ei - si - 1) + 1 := by omega
  rw [this, List.take_succ_cons]
  simp

theorem update_route_schedule_totals (c : Collab) (rc : RouteContext) (s e : Activity)
    (hs : (update_route_schedule c rc).route.tour.head? = some s)
    (he : (update_route_schedule c rc).route.tour.getLast? = some e) :
    (update_route_schedule c rc).state.totalDuration =
      some (calculate_route_duration (update_route_schedule c rc).route
        ((update_route_schedule c rc).route.costSpan)
        ((update_route_schedule c rc).route.tour.length) s e) ∧
    (update_route_schedule c rc).state.totalDistance =
      some (calculate_route_distance c (update_route_schedule c rc).route
        ((update_route_schedule c rc).route.costSpan)
        ((update_route_schedule c rc).route.tour.length)) := by
  rw [update_route_schedule_eq_statistics] at hs he ⊢
  rw [update_statistics_route] at hs he ⊢
  exact update_statistics_totals c _ s e hs he

/-- C3: after `update_route_schedule` the stored totals satisfy the cost-span table;
on open tours (last activity carries a job) the `FirstJobToDepot` totals collapse to
the `FirstJobToLastJob` ones and `DepotToDepot` to `DepotToLastJob`. -/
theorem claim_C3_statistics_table (c : Collab) (rc : RouteContext) (r : Route)
    (st : RouteState) (hr : update_route_schedule c rc = ⟨r, st⟩) (s e : Activity)
    (hs : r.tour.head? = some s) (he : r.tour.getLast? = some e) :
    (r.costSpan = .depotToDepot →
      st.totalDuration = some (e.schedule.departure - s.schedule.departure) ∧
      st.totalDistance = some (segmentDistance c (r.tour.take r.tour.length))) ∧
    (∀ k lj, r.costSpan = .depotToLastJob → get_last_job_idx r r.tour.length = some k →
      r.tour.get? k = some lj →
      st.totalDuration = some (lj.schedule.departure - s.schedule.departure) ∧
      st.totalDistance = some (segmentDistance c (r.tour.take (k + 1)))) ∧
    (∀ fj, r.costSpan = .firstJobToDepot → has_jobs r r.tour.length = true →
      r.tour.get? 1 = some fj →
      st.totalDuration = some (e.schedule.departure - fj.schedule.arrival) ∧
      st.totalDistance = some (segmentDistance c (r.tour.drop 1))) ∧
    (∀ k fj lj, r.costSpan = .firstJobToLastJob →
      get_last_job_idx r r.tour.length = some k →
      r.tour.get? 1 = some fj → r.tour.get? k = some lj →
      st.totalDuration = some (lj.schedule.departure - fj.schedule.arrival) ∧
      st.totalDistance = some (segmentDistance c ((r.tour.drop 1).take k))) ∧
    (e.job.isSome = true → 1 < r.tour.length →
      calculate_route_duration r .firstJobToDepot r.tour.length s e =
        calculate_route_duration r .firstJobToLastJob r.tour.length s e ∧
      calculate_route_duration r .depotToDepot r.tour.length s e =
        calculate_route_duration r .depotToLastJob r.tour.length s e ∧
      calculate_route_distance c r .firstJobToDepot r.tour.length =
        calculate_route_distance c r .firstJobToLastJob r.tour.length ∧
      calculate_route_distance c r .depotToDepot r.tour.length =
        calculate_route_distance c r .depotToLastJob r.tour.length) := by
  have hlenpos : 0 < r.tour.length := by
    have hne : r.tour ≠ [] := by
      intro hnil; rw [hnil] at hs; exact Option.noConfusion hs
    exact List.length_pos.2 hne
  have h0 : r.tour.get? 0 = some s := by rw [List.get?_zero]; exact hs
  have hrr : (update_route_schedule c rc).route = r := by rw [hr]
  have hrs : (update_route_schedule c rc).state = st := by rw [hr]
  obtain ⟨Hdur, Hdist⟩ := update_route_schedule_totals c rc s e
    (by rw [hrr]; exact hs) (by rw [hrr]; exact he)
  rw [hrr] at Hdur Hdist
  rw [hrs] at Hdur Hdist
  refine ⟨fun hsp => ?_, fun k lj hsp hk hlj => ?_, fun fj hsp hj hfj => ?_,
    fun k fj lj hsp hk hfj hlj => ?_, fun hopen hlen => ?_⟩
  · constructor
    · rw [Hdur, hsp]; rfl
    · rw [Hdist, hsp]
      unfold calculate_route_distance
      simp only [h0]
      rw [calc_dist_range c r 0 r.tour.length s h0 hlenpos]
      simp
  · constructor
    · rw [Hdur, hsp]
      unfold calculate_route_duration
      simp only [hk, hlj]
    · rw [Hdist, hsp]
      unfold calculate_route_distance
      simp only [hk, Option.map_some', h0]
      rw [calc_dist_range c r 0 (k + 1) s h0 (by omega)]
      simp
  · constructor
    · rw [Hdur, hsp]
      unfold calculate_route_duration
      simp only [hj, hfj, if_true]
    · rw [Hdist, hsp]
      unfold calculate_route_distance
      simp only [hj, hfj, if_true]
      have h1lt := has_jobs_one_lt r r.tour.length hj
      rw [calc_dist_range c r 1 r.tour.length fj hfj h1lt]
      have hdl : (r.tour.drop 1).take (r.tour.length - 1) = r.tour.drop 1 := by
        have hll : r.tour.length - 1 = (r.tour.drop 1).length := by simp
        rw [hll, List.take_length]
      rw [hdl]
  · obtain ⟨hk1, hklt⟩ := get_last_job_idx_ge_one r r.tour.length k hk
    constructor
    · rw [Hdur, hsp]
      unfold calculate_route_duration
      simp only [hk, hfj, hlj]
    · rw [Hdist, hsp]
      unfold calculate_route_distance
      simp only [hk, Option.map_some', hfj]
      rw [calc_dist_range c r 1 (k + 1) fj hfj (by omega)]
      have hkk : k + 1 - 1 = k := by omega
      rw [hkk]
  · have hnotdepot : e.job.isNone = false := by
      cases hj : e.job with
      | none => rw [hj] at hopen; simp at hopen
      | some j => simp
    have hidx : get_last_job_idx r r.tour.length = some (r.tour.length - 1) := by
      unfold get_last_job_idx
      rw [if_neg (by omega), he]
      simp [hnotdepot]
    have hge : r.tour.get? (r.tour.length - 1) = some e := by
      rw [List.get?_eq_getElem?, ← List.getLast?_eq_getElem?]
      exact he
    obtain ⟨fj, hfj⟩ : ∃ fj, r.tour.get? 1 = some fj := by
      cases hq : r.tour.get? 1 with
      | none =>
        exfalso
        have := List.get?_eq_none.1 hq
        omega
      | some fj => exact ⟨fj, rfl⟩
    have hjobs : has_jobs r r.tour.length = true := by
      unfold has_jobs
      rw [he]
      simp [hnotdepot, hlen]
    have hsucc : r.tour.length - 1 + 1 = r.tour.length := by omega
    refine ⟨?_, ?_, ?_, ?_⟩
    · unfold calculate_route_duration
      simp only [hjobs, hidx, hfj, hge, if_true]
    · unfold calculate_route_duration
      simp only [hidx, hge]
    · unfold calculate_route_distance
      simp only [hjobs, hidx, Option.map_some', if_true]
      rw [hsucc]
    · unfold calculate_route_distance
      simp only [hidx, Option.map_some']
      rw [hsucc]

/-- Witness for C3 at a concrete closed `DepotToDepot` tour. -/
theorem claim_C3_statistics_table_witness :
    (update_route_schedule cUnit rcStats).state.totalDuration = some 2 := by
  have hs : (update_route_schedule cUnit rcStats).route.tour.head? = some aStart := by
    with_unfolding_all decide
  have he : (update_route_schedule cUnit rcStats).route.tour.getLast? = some aEnd := by
    with_unfolding_all decide
  have hsp : (update_route_schedule cUnit rcStats).route.costSpan = .depotToDepot := by
    with_unfolding_all decide
  have h := claim_C3_statistics_table cUnit rcStats
    (update_route_schedule cUnit rcStats).route (update_route_schedule cUnit rcStats).state
    rfl aStart aEnd hs he
  have hd := (h.1 hsp).1
  rw [hd]
  norm_num [aEnd, aStart]

/-!
## Claim C5: window rebinding under an anchor shift
-/

theorem update_route_schedule_time_map (c : Collab) (rc : RouteContext) :
    (update_route_schedule c rc).route.tour.map (fun a => a.place.time) =
      rc.route.tour.map (fun a => a.place.time) := by
  have hpm := update_route_schedule_place_map c rc
  calc (update_route_schedule c rc).route.tour.map (fun a => a.place.time)
      = ((update_route_schedule c rc).route.tour.map (fun a => a.place)).map
          (fun p => p.time) := by rw [List.map_map]; rfl
    _ = (rc.route.tour.map (fun a => a.place)).map (fun p => p.time) := by rw [hpm]
    _ = rc.route.tour.map (fun a => a.place.time) := by rw [List.map_map]; rfl

theorem setStartDeparture_time_map (r : Route) (d : ℚ) :
    (setStartDeparture r d).tour.map (fun a => a.place.time) =
      r.tour.map (fun a => a.place.time) := by
  unfold setStartDeparture
  cases ht : r.tour with
  | nil => simp [ht]
  | cons s rest => simp [ht]

theorem rebindActivity_time_congr (x y : ℚ) (a b : Activity) (hp : a.place = b.place)
    (hj : a.job = b.job) :
    (rebindActivity x y a).place.time = (rebindActivity x y b).place.time := by
  unfold rebindActivity
  rw [hj, hp]
  split
  · rw [hp]
  · split
    · rw [hp]
    · split
      · rw [hp]
      · rfl

theorem map_time_rebind_congr (a b : ℚ) (r : Route) (d : ℚ) :
    (setStartDeparture r d).tour.map (fun x => (rebindActivity a b x).place.time) =
      r.tour.map (fun x => (rebindActivity a b x).place.time) := by
  unfold setStartDeparture
  cases ht : r.tour with
  | nil => simp [ht]
  | cons s rest =>
    simp only [ht, List.map_cons]
    congr 1
    exact rebindActivity_time_congr a b _ s rfl rfl

/-- C5: when `update_route_departure` shifts the anchor from `A_old` to `A_new`, the
resolved windows after the call are exactly the `rebindActivity A_old A_new` images of
the previous windows; an activity whose window equals the `A_old`-materialisation of
some offset span of its place gets the first such span's `A_new`-materialisation,
i.e. its old window shifted by `Δ = A_new − A_old`; an activity with no matching
offset span keeps its window; and when `A_new = A_old` all windows are unchanged. -/
theorem claim_C5_window_rebinding (c : Collab) (rc : RouteContext) (d : ℚ)
    (oldAnchor newAnchor : ℚ) (hold : oldAnchor = get_offset_anchor rc.route)
    (hnew : newAnchor = get_offset_anchor (setStartDeparture rc.route d)) :
    (newAnchor = oldAnchor →
      (update_route_departure c rc d).route.tour.map (fun a => a.place.time) =
        rc.route.tour.map (fun a => a.place.time)) ∧
    (newAnchor ≠ oldAnchor →
      (update_route_departure c rc d).route.tour.map (fun a => a.place.time) =
        rc.route.tour.map (fun a => (rebindActivity oldAnchor newAnchor a).place.time)) ∧
    (∀ a j pd span, a.job = some j → j.places.get? a.place.idx = some pd →
      pd.times.find? (fun sp => sp.isOffset &&
        decide (sp.toTimeWindow oldAnchor = a.place.time)) = some span →
      (rebindActivity oldAnchor newAnchor a).place.time = span.toTimeWindow newAnchor ∧
      span.toTimeWindow newAnchor =
        ⟨a.place.time.start + (newAnchor - oldAnchor),
         a.place.time.end_ + (newAnchor - oldAnchor)⟩) ∧
    (∀ a j, a.job = some j →
      (∀ pd, j.places.get? a.place.idx = some pd →
        pd.times.find? (fun sp => sp.isOffset &&
          decide (sp.toTimeWindow oldAnchor = a.place.time)) = none) →
      rebindActivity oldAnchor newAnchor a = a) ∧
    (∀ a, a.job = none → rebindActivity oldAnchor newAnchor a = a) := by
  have hwins : (update_route_departure c rc d).route.tour.map (fun a => a.place.time) =
      (recompute_offset_time_windows (setStartDeparture rc.route d)
        (get_offset_anchor rc.route)
        (get_offset_anchor (setStartDeparture rc.route d))).tour.map
        (fun a => a.place.time) := by
    unfold update_route_departure
    dsimp only
    exact update_route_schedule_time_map c _
  refine ⟨?_, ?_, ?_, ?_, ?_⟩
  · intro heq
    rw [hwins]
    unfold recompute_offset_time_windows
    rw [if_pos (by rw [← hold, ← hnew, heq])]
    rw [setStartDeparture_time_map]
  · intro hne
    rw [hwins]
    unfold recompute_offset_time_windows
    rw [if_neg (by rw [← hold, ← hnew]; intro hcon; exact hne hcon.symm)]
    rw [List.map_map]
    rw [← hold, ← hnew]
    exact map_time_rebind_congr oldAnchor newAnchor rc.route d
  · intro a j pd span ha hpd hfind
    have hpred := List.find?_some hfind
    have hoff : span.isOffset = true := by
      cases hb : span.isOffset
      · rw [hb] at hpred; simp at hpred
      · rfl
    have htw : span.toTimeWindow oldAnchor = a.place.time := by
      rw [hoff] at hpred
      simpa using hpred
    constructor
    · unfold rebindActivity
      rw [ha]
      dsimp only
      rw [hpd]
      dsimp only
      rw [hfind]
    · cases span with
      | window tw => rw [TimeSpan.isOffset] at hoff; exact Bool.noConfusion hoff
      | offset os oe =>
        unfold TimeSpan.toTimeWindow at htw ⊢
        have h1 : oldAnchor + os = a.place.time.start := congrArg TimeWindow.start htw
        have h2 : oldAnchor + oe = a.place.time.end_ := congrArg TimeWindow.end_ htw
        have g1 : newAnchor + os = a.place.time.start + (newAnchor - oldAnchor) := by
          rw [← h1]; ring
        have g2 : newAnchor + oe = a.place.time.end_ + (newAnchor - oldAnchor) := by
          rw [← h2]; ring
        dsimp only
        rw [g1, g2]
  · intro a j ha hnone
    unfold rebindActivity
    rw [ha]
    dsimp only
    cases hpd : j.places.get? a.place.idx with
    | none => rfl
    | some pd =>
      dsimp only
      rw [hnone pd hpd]
  · intro a ha
    unfold rebindActivity
    rw [ha]

/-!
## Claim C4: the job-time-limits skip characterisation
-/

theorem jtlSkipEarliestB_iff (c : Collab) (cs : JobTimeConstraints)
    (actx : ActivityContext) :
    jtlSkipEarliestB c cs actx = true ↔
      ∃ E, cs.earliestFirst = some E ∧ jtlIsFirstJob actx ∧ jtlArrival c actx < E ∧
        actx.target.place.time.end_ < E := by
  unfold jtlSkipEarliestB jtlIsFirstJob
  cases hE : cs.earliestFirst with
  | none => simp
  | some E => simp [Option.isNone_iff_eq_none, and_assoc]

theorem jtlIsLastJobB_iff (actx : ActivityContext) :
    jtlIsLastJobB actx = true ↔ jtlIsLastJob actx := by
  unfold jtlIsLastJobB jtlIsLastJob
  cases actx.next <;> simp [Option.isNone_iff_eq_none]

/-- C4: `JobTimeLimitsConstraint::evaluate` returns `Skip(code)` on an activity move
iff the actor defines job time constraints, the target carries a job, and either the
`earliest_first` rule fires (first job, arrival before `E`, window end before `E`) or
the `latest_last` rule fires (last job, estimated departure after `L`); in every other
case, route-level evaluation included, it allows the move. -/
theorem claim_C4_job_time_limits_iff (c : Collab) (viol : ℕ)
    (dim : Option JobTimeConstraints) (actx : ActivityContext) :
    jobTimeLimits_evaluate c viol dim .route = none ∧
    (evaluate_activity c viol dim actx = none ∨
      evaluate_activity c viol dim actx = some viol) ∧
    (evaluate_activity c viol dim actx = some viol ↔ jtlSkipCondition c dim actx) := by
  refine ⟨rfl, ?_⟩
  unfold evaluate_activity jtlSkipCondition
  cases dim with
  | none => simp
  | some cs =>
    dsimp only
    by_cases hbn : cs.earliestFirst.isNone ∧ cs.latestLast.isNone
    · rw [if_pos hbn]
      obtain ⟨he, hl⟩ := hbn
      rw [Option.isNone_iff_eq_none] at he hl
      simp [he, hl]
    · rw [if_neg hbn]
      by_cases htj : actx.target.job.isNone = true
      · rw [if_pos htj]
        rw [Option.isNone_iff_eq_none] at htj
        simp [htj]
      · rw [if_neg htj]
        have hts : actx.target.job.isSome = true := by
          cases hq : actx.target.job with
          | none => exact absurd (by rw [hq]; rfl) htj
          | some v => rfl
        by_cases hA : jtlSkipEarliestB c cs actx = true
        · rw [if_pos hA]
          exact ⟨Or.inr rfl, iff_of_true rfl
            ⟨cs, rfl, hts, Or.inl ((jtlSkipEarliestB_iff c cs actx).1 hA)⟩⟩
        · rw [if_neg hA]
          cases hL : cs.latestLast with
          | none =>
            dsimp only
            refine ⟨Or.inl rfl, iff_of_false (by simp) ?_⟩
            rintro ⟨cs', hcs', hts', hdisj⟩
            cases Option.some.inj hcs'
            rcases hdisj with hdis | hdis
            · exact hA ((jtlSkipEarliestB_iff c cs actx).2 hdis)
            · obtain ⟨L, hLeq, _⟩ := hdis
              rw [hL] at hLeq
              exact Option.noConfusion hLeq
          | some L =>
            dsimp only
            by_cases hlast : jtlIsLastJobB actx = true
            · rw [if_pos hlast]
              by_cases hcomp : L < jtlDepOut c cs actx
              · rw [if_pos hcomp]
                exact ⟨Or.inr rfl, iff_of_true rfl ⟨cs, rfl, hts,
                  Or.inr ⟨L, hL, (jtlIsLastJobB_iff actx).1 hlast, hcomp⟩⟩⟩
              · rw [if_neg hcomp]
                refine ⟨Or.inl rfl, iff_of_false (by simp) ?_⟩
                rintro ⟨cs', hcs', hts', hdisj⟩
                cases Option.some.inj hcs'
                rcases hdisj with hdis | hdis
                · exact hA ((jtlSkipEarliestB_iff c cs actx).2 hdis)
                · obtain ⟨L', hL', hlast', hcomp'⟩ := hdis
                  rw [hL] at hL'
                  cases Option.some.inj hL'
                  exact hcomp hcomp'
            · rw [if_neg hlast]
              refine ⟨Or.inl rfl, iff_of_false (by simp) ?_⟩
              rintro ⟨cs', hcs', hts', hdisj⟩
              cases Option.some.inj hcs'
              rcases hdisj with hdis | hdis
              · exact hA ((jtlSkipEarliestB_iff c cs actx).2 hdis)
              · obtain ⟨L', hL', hlast', _⟩ := hdis
                exact hlast ((jtlIsLastJobB_iff actx).2 hlast')

/-!
## Claim C8: monotonicity of the job-time-limits constraint
-/

/-- C8 (amended): the constraint is monotone in `latest_last` unconditionally, and
monotone under decreasing `earliest_first` provided the estimated departure is
monotone in its service-start argument (true for the §4.2 contract without
reserved-time extensions). -/
theorem claim_C8_monotonicity (c : Collab) (viol : ℕ) (actx : ActivityContext) :
    (∀ (ef : Option ℚ) (L L' : ℚ), L ≤ L' →
      evaluate_activity c viol (some ⟨ef, some L⟩) actx = none →
      evaluate_activity c viol (some ⟨ef, some L'⟩) actx = none) ∧
    (∀ (E E' : ℚ) (ll : Option ℚ),
      (∀ x y, x ≤ y →
        (c.estimateDeparture actx.target.place x).unwrapValue ≤
          (c.estimateDeparture actx.target.place y).unwrapValue) →
      E' ≤ E →
      evaluate_activity c viol (some ⟨some E, ll⟩) actx = none →
      evaluate_activity c viol (some ⟨some E', ll⟩) actx = none) := by
  constructor
  · intro ef L L' hLL h
    unfold evaluate_activity at h ⊢
    dsimp only at h ⊢
    rw [if_neg (by simp)] at h ⊢
    by_cases htj : actx.target.job.isNone = true
    · rw [if_pos htj]
    · rw [if_neg htj] at h ⊢
      have hBeq : jtlSkipEarliestB c ⟨ef, some L'⟩ actx =
          jtlSkipEarliestB c ⟨ef, some L⟩ actx := rfl
      by_cases hB : jtlSkipEarliestB c ⟨ef, some L⟩ actx = true
      · rw [if_pos hB] at h; exact Option.noConfusion h
      · rw [if_neg hB] at h
        rw [if_neg (by rw [hBeq]; exact hB)]
        try dsimp only at h ⊢
        by_cases hlast : jtlIsLastJobB actx = true
        · rw [if_pos hlast] at h ⊢
          by_cases hc1 : L < jtlDepOut c ⟨ef, some L⟩ actx
          · rw [if_pos hc1] at h; exact Option.noConfusion h
          · have hd : jtlDepOut c ⟨ef, some L'⟩ actx =
                jtlDepOut c ⟨ef, some L⟩ actx := rfl
            rw [if_neg ?hng]
            case hng =>
              intro hcon
              rw [hd] at hcon
              exact hc1 (lt_of_le_of_lt hLL hcon)
        · rw [if_neg hlast]
  · intro E E' ll hmono hEE h
    unfold evaluate_activity at h ⊢
    dsimp only at h ⊢
    rw [if_neg (by simp)] at h ⊢
    by_cases htj : actx.target.job.isNone = true
    · rw [if_pos htj]
    · rw [if_neg htj] at h ⊢
      by_cases hB : jtlSkipEarliestB c ⟨some E, ll⟩ actx = true
      · rw [if_pos hB] at h; exact Option.noConfusion h
      · rw [if_neg hB] at h
        have hB' : jtlSkipEarliestB c ⟨some E', ll⟩ actx = false := by
          cases hbv : jtlSkipEarliestB c ⟨some E', ll⟩ actx
          · rfl
          · exfalso
            obtain ⟨Ex, hEx, hfirst, harr, hend⟩ :=
              (jtlSkipEarliestB_iff c ⟨some E', ll⟩ actx).1 hbv
            cases Option.some.inj hEx
            exact hB ((jtlSkipEarliestB_iff c ⟨some E, ll⟩ actx).2
              ⟨E, rfl, hfirst, lt_of_lt_of_le harr hEE, lt_of_lt_of_le hend hEE⟩)
        rw [if_neg (by rw [hB']; exact Bool.false_ne_true)]
        cases ll with
        | none => rfl
        | some L =>
          try dsimp only at h ⊢
          by_cases hlast : jtlIsLastJobB actx = true
          · rw [if_pos hlast] at h ⊢
            by_cases hc1 : L < jtlDepOut c ⟨some E, some L⟩ actx
            · rw [if_pos hc1] at h; exact Option.noConfusion h
            · have hdep : jtlDepOut c ⟨some E', some L⟩ actx ≤
                  jtlDepOut c ⟨some E, some L⟩ actx := by
                unfold jtlDepOut
                apply hmono
                apply max_le_max _ le_rfl
                unfold jtlActualArrival
                dsimp only
                by_cases hfst : actx.prev.job.isNone ∧ actx.index = 0
                · rw [if_pos hfst, if_pos hfst]
                  exact max_le_max le_rfl hEE
                · rw [if_neg hfst, if_neg hfst]
              exact if_neg (fun hcon => hc1 (lt_of_lt_of_le hcon hdep))
          · rw [if_neg hlast]

/-- C8 counterexample: with a §4.2-conforming collaborator that carries a reserved
time, decreasing `earliest_first` from 7 to 11/2 turns an accepted move into a skip,
refuting unconditional monotonicity in `E`. -/
theorem claim_C8_counterexample :
    (11 / 2 : ℚ) ≤ 7 ∧
    evaluate_activity cRes 1
      (some { earliestFirst := some 7, latestLast := some 20 }) actxRes = none ∧
    evaluate_activity cRes 1
      (some { earliestFirst := some (11 / 2), latestLast := some 20 }) actxRes =
        some 1 := by
  with_unfolding_all decide

/-- Witness for C8 at a concrete allow verdict, raising `latest_last` 100 → 200. -/
theorem claim_C8_monotonicity_witness :
    evaluate_activity cUnit 1
      (some { earliestFirst := none, latestLast := some 200 }) actxRes = none := by
  exact (claim_C8_monotonicity cUnit 1 actxRes).1 none 100 200 (by norm_num)
    (by with_unfolding_all decide)

/-!
## Claim C9: required breaks in the checker's expected count
-/

theorem expectedBreakCount_foldl_shift (dep arr anchor : ℚ) (l : List VehicleBreak) :
    ∀ n : ℕ,
      l.foldl (fun acc vb => if shouldAssignBreak dep arr anchor vb then acc + 1 else acc)
          n =
        n + l.foldl
          (fun acc vb => if shouldAssignBreak dep arr anchor vb then acc + 1 else acc) 0 := by
  induction l with
  | nil => intro n; simp
  | cons vb rest ih =>
    intro n
    simp only [List.foldl_cons]
    by_cases hv : shouldAssignBreak dep arr anchor vb = true
    · rw [if_pos hv, if_pos hv]
      rw [ih (n + 1), ih (0 + 1)]
      omega
    · rw [if_neg hv, if_neg hv]
      exact ih n

theorem expectedBreakCount_cons (dep arr anchor : ℚ) (vb : VehicleBreak)
    (rest : List VehicleBreak) :
    expectedBreakCount dep arr anchor (vb :: rest) =
      (if shouldAssignBreak dep arr anchor vb then 1 else 0) +
        expectedBreakCount dep arr anchor rest := by
  unfold expectedBreakCount
  simp only [List.foldl_cons]
  by_cases hv : shouldAssignBreak dep arr anchor vb = true
  · rw [if_pos hv]
    rw [expectedBreakCount_foldl_shift dep arr anchor rest (0 + 1)]
  · rw [if_neg hv]
    simp

/-- C9: a `Required` break is counted as expected iff its resolved window (end
stretched by the break duration) intersects the tour window `[departure, arrival]`
and its end lies strictly before the tour arrival; in particular a required break
whose end falls on or after the arrival contributes nothing. -/
theorem claim_C9_required_break_expected_iff (departure arrival offsetAnchor : ℚ)
    (t : VehicleRequiredBreakTime) (dur : ℚ) (rest : List VehicleBreak) :
    ∃ btw, get_break_time_window departure offsetAnchor (.required t dur) = some btw ∧
      shouldAssignBreak departure arrival offsetAnchor (.required t dur) =
        (btw.intersects ⟨departure, arrival⟩ && decide (btw.end_ < arrival)) ∧
      expectedBreakCount departure arrival offsetAnchor (.required t dur :: rest) =
        (if btw.intersects ⟨departure, arrival⟩ = true ∧ btw.end_ < arrival then 1 else 0) +
          expectedBreakCount departure arrival offsetAnchor rest ∧
      (arrival ≤ btw.end_ →
        expectedBreakCount departure arrival offsetAnchor (.required t dur :: rest) =
          expectedBreakCount departure arrival offsetAnchor rest) := by
  obtain ⟨btw, hb⟩ : ∃ btw,
      get_break_time_window departure offsetAnchor (.required t dur) = some btw := by
    cases t <;> exact ⟨_, rfl⟩
  have hassign : shouldAssignBreak departure arrival offsetAnchor (.required t dur) =
      (btw.intersects ⟨departure, arrival⟩ && decide (btw.end_ < arrival)) := by
    unfold shouldAssignBreak
    rw [hb]
  have hcount : expectedBreakCount departure arrival offsetAnchor
      (.required t dur :: rest) =
      (if btw.intersects ⟨departure, arrival⟩ = true ∧ btw.end_ < arrival then 1 else 0) +
        expectedBreakCount departure arrival offsetAnchor rest := by
    rw [expectedBreakCount_cons]
    congr 1
    rw [hassign]
    by_cases h1 : btw.intersects ⟨departure, arrival⟩ = true <;>
      by_cases h2 : btw.end_ < arrival <;> simp [h1, h2]
  refine ⟨btw, hb, hassign, hcount, ?_⟩
  intro hle
  rw [hcount]
  rw [if_neg (fun hcon => absurd hle (not_le.2 hcon.2))]
  simp

/-- Witness for C5: a concrete offset-window activity moves by exactly Δ = 5. -/
theorem claim_C5_window_rebinding_witness :
    (rebindActivity 0 5 aOff).place.time = ⟨7, 8⟩ := by
  have h := claim_C5_window_rebinding cUnit rcOff 5 0 5
    (by with_unfolding_all decide) (by with_unfolding_all decide)
  obtain ⟨h1, h2⟩ := h.2.2.1 aOff { places := [{ times := [.offset 2 3], duration := 0 }] }
    { times := [.offset 2 3], duration := 0 } (.offset 2 3) rfl rfl
    (by with_unfolding_all decide)
  rw [h1, h2]
  show (⟨aOff.place.time.start + (5 - 0), aOff.place.time.end_ + (5 - 0)⟩ : TimeWindow) = _
  norm_num [aOff]

/-- Witness for C9: a required break ending after the tour arrival is not expected. -/
theorem claim_C9_required_break_expected_iff_witness :
    expectedBreakCount 0 10 0 [VehicleBreak.required (.offsetTime 11 11) 2] =
      expectedBreakCount 0 10 0 [] := by
  obtain ⟨btw, hb, hassign, hcount, h4⟩ :=
    claim_C9_required_break_expected_iff 0 10 0 (.offsetTime 11 11) 2 []
  have hv : get_break_time_window 0 0 (VehicleBreak.required (.offsetTime 11 11) 2) =
      some ⟨11, 13⟩ := by with_unfolding_all decide
  have hbtw : btw = ⟨11, 13⟩ := Option.some.inj (hb.symm.trans hv)
  exact h4 (by rw [hbtw]; norm_num)

/-!
## Claims C6 and C10: the vehicle-distance penalty
-/

theorem vehiclePenalty_fold_sum (d : ℕ → ℕ → ℕ → ℚ) (actors : List VActor)
    (compat : JobDef → VActor → Bool) (profile assignedStart : ℕ) (l : List Activity) :
    ∀ init : ℚ,
      l.foldl (fun acc a =>
        acc + vehicleActivityPenalty d actors compat profile assignedStart a) init =
      init + ((l.filterMap (fun a => a.job.map (fun j => (a.place.location, j)))).map
        (vehicleJobPenalty d actors compat profile assignedStart)).sum := by
  induction l with
  | nil => intro init; simp
  | cons a rest ih =>
    intro init
    simp only [List.foldl_cons, List.filterMap_cons]
    cases hj : a.job with
    | none =>
      have hz : vehicleActivityPenalty d actors compat profile assignedStart a = 0 := by
        unfold vehicleActivityPenalty
        rw [hj]
      rw [hz, ih]
      simp
    | some j =>
      have hz : vehicleActivityPenalty d actors compat profile assignedStart a =
          vehicleJobPenalty d actors compat profile assignedStart
            (a.place.location, j) := by
        unfold vehicleActivityPenalty vehicleJobPenalty
        rw [hj]
      rw [hz, ih]
      simp only [Option.map_some', List.map_cons, List.sum_cons]
      ring

/-- C6 (amended): the route penalty is the sum over job activities of
`max(0, d_a − d_n)`, where `d_a` uses the assigned vehicle's profile but `d_n` is
computed with the profile of the *first configured fleet actor* (`actors[0]`), not
the assigned vehicle's; `d_n` defaults to `d_a` when no compatible actor with a
start location exists. -/
theorem claim_C6_vehicle_distance_penalty (d : ℕ → ℕ → ℕ → ℚ) (actors : List VActor)
    (compat : JobDef → VActor → Bool) (r : VRoute) :
    compute_route_penalty d actors compat r =
      specVehicleRoutePenaltyFirstProfile d actors compat r := by
  unfold compute_route_penalty specVehicleRoutePenaltyFirstProfile
  cases hs : r.actor.startLoc with
  | none => rfl
  | some s0 =>
    dsimp only
    rw [vehiclePenalty_fold_sum]
    simp

/-- C6 counterexample: with distinct profiles the code's nearest distance uses
`actors[0]`'s profile, so the computed penalty differs from the spec's
assigned-profile formula. -/
theorem claim_C6_counterexample :
    compute_route_penalty dApproxX [vActorB] compatAll vRouteX = 0 ∧
    specVehicleRoutePenalty dApproxX [vActorB] compatAll vRouteX = 3 := by
  with_unfolding_all decide

/-- Witness for C6 at a concrete route. -/
theorem claim_C6_vehicle_distance_penalty_witness :
    compute_route_penalty dApproxX [vActorB] compatAll vRouteX =
      specVehicleRoutePenaltyFirstProfile dApproxX [vActorB] compatAll vRouteX :=
  claim_C6_vehicle_distance_penalty dApproxX [vActorB] compatAll vRouteX

/-- C10: a job activity with no compatible fleet actor having a start location
contributes exactly 0 (the nearest distance defaults to the assigned distance), and a
route whose own actor has no start location has total penalty 0. -/
theorem claim_C10_vehicle_distance_defaults (d : ℕ → ℕ → ℕ → ℚ) (actors : List VActor)
    (compat : JobDef → VActor → Bool) (profile assignedStart : ℕ) (a : Activity)
    (j : JobDef) (r : VRoute) :
    (a.job = some j →
      (actors.filter (fun x => compat j x)).filterMap (fun x => x.startLoc) = [] →
      vehicleActivityPenalty d actors compat profile assignedStart a = 0) ∧
    (r.actor.startLoc = none → compute_route_penalty d actors compat r = 0) := by
  constructor
  · intro ha hempty
    unfold vehicleActivityPenalty
    rw [ha]
    dsimp only
    unfold find_nearest_compatible_vehicle_dist
    rw [hempty]
    simp
  · intro hn
    unfold compute_route_penalty
    rw [hn]

/-- Witness for C10: with an empty fleet the job contributes 0. -/
theorem claim_C10_vehicle_distance_defaults_witness :
    vehicleActivityPenalty dApproxX [] compatAll 1 0 actX = 0 :=
  (claim_C10_vehicle_distance_defaults dApproxX [] compatAll 1 0 actX jobX vRouteX).1
    rfl rfl

/-!
## Claim C7: departure repair — monotonicity, restoration, feasibility
-/

theorem try_advance_inv (c : Collab) (rc : RouteContext) (whole : Bool) (u : ℚ)
    (h : try_advance_departure_time c rc whole = some u) :
    rc.route.tour ≠ [] ∧ rc.route.startDeparture < u := by
  unfold try_advance_departure_time at h
  rcases h1 : rc.route.tour.get? 1 with _ | first
  · rw [h1] at h; exact Option.noConfusion h
  · rcases h0 : rc.route.tour.head? with _ | start
    · rw [h1, h0] at h; exact Option.noConfusion h
    · rw [h1, h0] at h
      dsimp only at h
      have hne : rc.route.tour ≠ [] := by
        intro hnil; rw [hnil] at h0; exact Option.noConfusion h0
      have hsd : rc.route.startDeparture = start.schedule.departure := by
        unfold Route.startDeparture
        rw [h0]
        rfl
      refine ⟨hne, ?_⟩
      rw [hsd]
      split at h
      all_goals split at h
      all_goals
        first
          | exact Option.noConfusion h
          | (rename_i hlt
             cases Option.some.inj h
             linarith)

theorem try_recede_inv (rc : RouteContext) (nd : ℚ)
    (h : try_recede_departure_time rc = some nd) :
    rc.route.tour ≠ [] ∧ nd < rc.route.startDeparture := by
  unfold try_recede_departure_time at h
  rcases h1 : rc.route.tour.get? 1 with _ | first
  · rw [h1] at h; exact Option.noConfusion h
  · rcases h0 : rc.route.tour.head? with _ | start
    · rw [h1, h0] at h; exact Option.noConfusion h
    · rw [h1, h0] at h
      dsimp only at h
      rcases h2 : rc.state.latestArrivals.get? 1 with _ | la1
      · rw [h2] at h; exact Option.noConfusion h
      · rw [h2] at h
        dsimp only at h
        have hne : rc.route.tour ≠ [] := by
          intro hnil; rw [hnil] at h0; exact Option.noConfusion h0
        have hsd : rc.route.startDeparture = start.schedule.departure := by
          unfold Route.startDeparture
          rw [h0]
          rfl
        refine ⟨hne, ?_⟩
        rw [hsd]
        split at h
        · rename_i hpos
          cases Option.some.inj h
          linarith
        · exact Option.noConfusion h

theorem urd_tour_ne (c : Collab) (rc : RouteContext) (d : ℚ)
    (h : rc.route.tour ≠ []) : (update_route_departure c rc d).route.tour ≠ [] := by
  intro hnil
  have hl := urd_length c rc d
  rw [hnil] at hl
  exact h (List.length_eq_zero.1 hl.symm)

theorem noOffsetTour_eq (r : Route) :
    noOffsetTour r =
      (r.tour.map (fun a => (a.job, a.place.idx))).all (fun p => noOffsetJobIdx p.1 p.2) := by
  unfold noOffsetTour
  suffices h : ∀ l : List Activity,
      l.all noOffsetActivity =
        (l.map (fun a => (a.job, a.place.idx))).all (fun p => noOffsetJobIdx p.1 p.2) from
    h r.tour
  intro l
  induction l with
  | nil => rfl
  | cons a t ih =>
    simp only [List.all_cons, List.map_cons]
    rw [ih]
    rfl

theorem urd_noOffset (c : Collab) (rc : RouteContext) (d : ℚ)
    (h : noOffsetTour rc.route = true) :
    noOffsetTour (update_route_departure c rc d).route = true := by
  rw [noOffsetTour_eq, urd_jobIdx_map, ← noOffsetTour_eq]
  exact h

theorem setStartDeparture_noOffset (r : Route) (d : ℚ)
    (h : noOffsetTour r = true) : noOffsetTour (setStartDeparture r d) = true := by
  rw [noOffsetTour_eq, setStartDeparture_jobIdx_map, ← noOffsetTour_eq]
  exact h

theorem rebindActivity_id_of_noOffset (x y : ℚ) (a : Activity)
    (h : noOffsetActivity a = true) : rebindActivity x y a = a := by
  unfold noOffsetActivity noOffsetJobIdx at h
  unfold rebindActivity
  split
  · rfl
  · rename_i j hj
    rw [hj] at h
    dsimp only at h
    split
    · rfl
    · rename_i pd hpd
      rw [hpd] at h
      split
      · rfl
      · rename_i span hfind
        exfalso
        have hmem := List.mem_of_find?_eq_some hfind
        have hpred := List.find?_some hfind
        have hoff : span.isOffset = true := by
          cases hb : span.isOffset
          · rw [hb] at hpred; simp at hpred
          · rfl
        have := List.all_eq_true.1 h span hmem
        rw [hoff] at this
        simp at this

theorem recompute_id_of_noOffset (r : Route) (x y : ℚ)
    (h : noOffsetTour r = true) : recompute_offset_time_windows r x y = r := by
  unfold recompute_offset_time_windows
  split
  · rfl
  · have hmap : r.tour.map (rebindActivity x y) = r.tour := by
      conv_rhs => rw [← List.map_id r.tour]
      apply List.map_congr_left
      intro a ha
      exact rebindActivity_id_of_noOffset x y a (List.all_eq_true.1 h a ha)
    rw [hmap]

theorem urd_place_map_of_noOffset (c : Collab) (rc : RouteContext) (d : ℚ)
    (h : noOffsetTour rc.route = true) :
    (update_route_departure c rc d).route.tour.map (fun a => a.place) =
      rc.route.tour.map (fun a => a.place) := by
  unfold update_route_departure
  dsimp only
  rw [update_route_schedule_place_map]
  show (recompute_offset_time_windows (setStartDeparture rc.route d) _ _).tour.map _ = _
  rw [recompute_id_of_noOffset _ _ _ (setStartDeparture_noOffset rc.route d h)]
  rw [setStartDeparture_place_map]

theorem feasibleFrom_congr (c : Collab) :
    ∀ (l l' : List Activity),
      l.map (fun a => a.place) = l'.map (fun a => a.place) →
      ∀ (loc : ℕ) (dep : ℚ), feasibleFrom c loc dep l = feasibleFrom c loc dep l' := by
  intro l
  induction l with
  | nil =>
    intro l' hmap loc dep
    cases l' with
    | nil => rfl
    | cons b t' => simp at hmap
  | cons a t ih =>
    intro l' hmap loc dep
    cases l' with
    | nil => simp at hmap
    | cons b t' =>
      simp only [List.map_cons, List.cons.injEq] at hmap
      obtain ⟨hb, ht⟩ := hmap
      unfold feasibleFrom
      dsimp only
      rw [hb]
      cases c.estimateDeparture b.place
        (dep + c.duration loc b.place.location (.departure dep)) with
      | brk v => rfl
      | cont v => exact ih t' ht b.place.location v

theorem tryCandidates_spec (c : Collab) (cur upper : ℚ) :
    ∀ (l : List ℚ) (rc : RouteContext), rc.route.tour ≠ [] →
      (tryCandidates c cur upper l rc).1.route.tour ≠ [] ∧
      ((tryCandidates c cur upper l rc).2.2 = true →
        cur < (tryCandidates c cur upper l rc).1.route.startDeparture ∧
        is_schedule_feasible c (tryCandidates c cur upper l rc).1.route = true) ∧
      (noOffsetTour rc.route = true →
        noOffsetTour (tryCandidates c cur upper l rc).1.route = true ∧
        (tryCandidates c cur upper l rc).1.route.tour.map (fun a => a.place) =
          rc.route.tour.map (fun a => a.place)) := by
  intro l
  induction l with
  | nil =>
    intro rc hne
    refine ⟨hne, ?_, ?_⟩
    · intro hok
      exact absurd hok (by simp [tryCandidates])
    · intro hno
      exact ⟨hno, rfl⟩
  | cons d rest ih =>
    intro rc hne
    have heq : tryCandidates c cur upper (d :: rest) rc =
        if d ≤ cur ∨ upper ≤ d then tryCandidates c cur upper rest rc
        else
          let rcn := update_route_departure c rc d
          if is_schedule_feasible c rcn.route then (rcn, [d], true)
          else ((tryCandidates c cur upper rest rcn).1,
            d :: (tryCandidates c cur upper rest rcn).2.1,
            (tryCandidates c cur upper rest rcn).2.2) := rfl
    rw [heq]
    by_cases hskip : d ≤ cur ∨ upper ≤ d
    · rw [if_pos hskip]
      exact ih rc hne
    · rw [if_neg hskip]
      dsimp only
      push_neg at hskip
      by_cases hfeas : is_schedule_feasible c (update_route_departure c rc d).route = true
      · rw [if_pos hfeas]
        refine ⟨urd_tour_ne c rc d hne, ?_, ?_⟩
        · intro _
          refine ⟨?_, hfeas⟩
          rw [urd_startDeparture c rc d hne]
          exact hskip.1
        · intro hno
          exact ⟨urd_noOffset c rc d hno, urd_place_map_of_noOffset c rc d hno⟩
      · rw [if_neg hfeas]
        obtain ⟨ih1, ih2, ih3⟩ := ih (update_route_departure c rc d) (urd_tour_ne c rc d hne)
        refine ⟨ih1, ?_, ?_⟩
        · intro hok
          exact ih2 hok
        · intro hno
          obtain ⟨hno', hpl⟩ := ih3 (urd_noOffset c rc d hno)
          exact ⟨hno', hpl.trans (urd_place_map_of_noOffset c rc d hno)⟩

theorem is_schedule_feasible_congr (c : Collab) (r r' : Route)
    (hd : r.startDeparture = r'.startDeparture)
    (hp : r.tour.map (fun a => a.place) = r'.tour.map (fun a => a.place)) :
    is_schedule_feasible c r = is_schedule_feasible c r' := by
  unfold is_schedule_feasible
  rcases hr : r.tour with _ | ⟨a, t⟩ <;> rcases hr' : r'.tour with _ | ⟨b, t'⟩
  · rfl
  · rw [hr, hr'] at hp; simp at hp
  · rw [hr, hr'] at hp; simp at hp
  · rw [hr, hr'] at hp
    simp only [List.map_cons, List.cons.injEq] at hp
    obtain ⟨hb, ht⟩ := hp
    have hdep : a.schedule.departure = b.schedule.departure := by
      unfold Route.startDeparture at hd
      rw [hr, hr'] at hd
      simpa using hd
    show feasibleFrom c a.place.location a.schedule.departure t =
      feasibleFrom c b.place.location b.schedule.departure t'
    rw [hb, hdep]
    exact feasibleFrom_congr c t t' ht b.place.location b.schedule.departure

theorem advance_props (c : Collab) (whole : Bool) (rc : RouteContext) :
    rc.route.startDeparture ≤ (advanceT c whole rc).1.route.startDeparture ∧
    ((advanceT c whole rc).2.2 = .restored →
      (advanceT c whole rc).1.route.startDeparture = rc.route.startDeparture) ∧
    (noOffsetTour rc.route = true → is_schedule_feasible c rc.route = true →
      is_schedule_feasible c (advanceT c whole rc).1.route = true) := by
  rcases hTA : try_advance_departure_time c rc whole with _ | upper
  · unfold advanceT
    rw [hTA]
    exact ⟨le_refl _, fun _ => rfl, fun _ hf => hf⟩
  · obtain ⟨hne, hlt⟩ := try_advance_inv c rc whole upper hTA
    unfold advanceT
    rw [hTA]
    dsimp only
    by_cases hfeas : is_schedule_feasible c (update_route_departure c rc upper).route = true
    · rw [if_pos hfeas]
      refine ⟨?_, ?_, ?_⟩
      · rw [urd_startDeparture c rc upper hne]
        exact le_of_lt hlt
      · intro h
        exact AdvanceOutcome.noConfusion h
      · intro _ _
        exact hfeas
    · rw [if_neg hfeas]
      obtain ⟨hT1, hT2, hT3⟩ := tryCandidates_spec c rc.route.startDeparture upper
        ((compute_critical_departures (update_route_departure c rc upper).route
          rc.route.startDeparture upper).reverse)
        (update_route_departure c rc upper) (urd_tour_ne c rc upper hne)
      generalize hres : tryCandidates c rc.route.startDeparture upper
        ((compute_critical_departures (update_route_departure c rc upper).route
          rc.route.startDeparture upper).reverse)
        (update_route_departure c rc upper) = res
      rw [hres] at hT1 hT2 hT3
      by_cases hok : res.2.2 = true
      · rw [if_pos hok]
        refine ⟨?_, ?_, ?_⟩
        · exact le_of_lt (hT2 hok).1
        · intro h
          exact AdvanceOutcome.noConfusion h
        · intro _ _
          exact (hT2 hok).2
      · rw [if_neg hok]
        have hstart : (update_route_departure c res.1
            rc.route.startDeparture).route.startDeparture = rc.route.startDeparture :=
          urd_startDeparture c res.1 rc.route.startDeparture hT1
        refine ⟨?_, ?_, ?_⟩
        · rw [hstart]
        · intro _
          exact hstart
        · intro hno hf
          have hno1 := urd_noOffset c rc upper hno
          obtain ⟨hnoR, hplR⟩ := hT3 hno1
          have hpl : (update_route_departure c res.1
                rc.route.startDeparture).route.tour.map (fun a => a.place) =
              rc.route.tour.map (fun a => a.place) :=
            (urd_place_map_of_noOffset c res.1 rc.route.startDeparture hnoR).trans
              (hplR.trans (urd_place_map_of_noOffset c rc upper hno))
          rw [is_schedule_feasible_congr c
            (update_route_departure c res.1 rc.route.startDeparture).route rc.route hstart hpl]
          exact hf

theorem recede_props (c : Collab) (rc : RouteContext) :
    (recedeT c rc).1.route.startDeparture ≤ rc.route.startDeparture ∧
    ((recedeT c rc).2 = false →
      (recedeT c rc).1.route.startDeparture = rc.route.startDeparture) ∧
    (noOffsetTour rc.route = true → is_schedule_feasible c rc.route = true →
      is_schedule_feasible c (recedeT c rc).1.route = true) := by
  rcases hTR : try_recede_departure_time rc with _ | nd
  · unfold recedeT
    rw [hTR]
    exact ⟨le_refl _, fun _ => rfl, fun _ hf => hf⟩
  · obtain ⟨hne, hlt⟩ := try_recede_inv rc nd hTR
    unfold recedeT
    rw [hTR]
    dsimp only
    by_cases hfeas : is_schedule_feasible c (update_route_departure c rc nd).route = true
    · rw [if_pos hfeas]
      refine ⟨?_, ?_, ?_⟩
      · rw [urd_startDeparture c rc nd hne]
        exact le_of_lt hlt
      · intro h
        exact Bool.noConfusion h
      · intro _ _
        exact hfeas
    · rw [if_neg hfeas]
      have hne1 : (update_route_departure c rc nd).route.tour ≠ [] :=
        urd_tour_ne c rc nd hne
      have hstart : (update_route_departure c (update_route_departure c rc nd)
          rc.route.startDeparture).route.startDeparture = rc.route.startDeparture :=
        urd_startDeparture c (update_route_departure c rc nd) rc.route.startDeparture hne1
      refine ⟨?_, ?_, ?_⟩
      · rw [hstart]
      · intro _
        exact hstart
      · intro hno hf
        have hno1 := urd_noOffset c rc nd hno
        have hpl := (urd_place_map_of_noOffset c (update_route_departure c rc nd)
            rc.route.startDeparture hno1).trans (urd_place_map_of_noOffset c rc nd hno)
        rw [is_schedule_feasible_congr c
          (update_route_departure c (update_route_departure c rc nd)
            rc.route.startDeparture).route rc.route hstart hpl]
        exact hf

/-!
## Claim C2: the critical-candidate set and trial order
-/

theorem mem_dedupAdj : ∀ (l : List ℚ) (a : ℚ), a ∈ dedupAdj l ↔ a ∈ l := by
  intro l
  induction l with
  | nil => intro a; simp [dedupAdj]
  | cons x t ih =>
    cases t with
    | nil => intro a; simp [dedupAdj]
    | cons y t2 =>
      intro a
      unfold dedupAdj
      by_cases hxy : x = y
      · rw [if_pos hxy]
        subst hxy
        rw [ih a]
        simp [List.mem_cons]
      · rw [if_neg hxy]
        simp [List.mem_cons, ih a]

theorem sorted_dedupAdj : ∀ l : List ℚ, l.Sorted (· ≤ ·) → (dedupAdj l).Sorted (· < ·) := by
  intro l
  induction l with
  | nil => intro _; simp [dedupAdj]
  | cons x t ih =>
    cases t with
    | nil => intro _; simp [dedupAdj]
    | cons y t2 =>
      intro hs
      rw [List.sorted_cons] at hs
      obtain ⟨hx, hs2⟩ := hs
      unfold dedupAdj
      by_cases hxy : x = y
      · rw [if_pos hxy]
        exact ih hs2
      · rw [if_neg hxy]
        rw [List.sorted_cons]
        refine ⟨?_, ih hs2⟩
        intro b hb
        have hbmem : b ∈ y :: t2 := (mem_dedupAdj _ b).1 hb
        have hxy' : x < y := lt_of_le_of_ne (hx y (List.mem_cons_self y t2)) hxy
        rcases List.mem_cons.1 hbmem with hby | hbt
        · rw [hby]
          exact hxy'
        · exact lt_of_lt_of_le hxy' ((List.sorted_cons.1 hs2).1 b hbt)

theorem mem_push_candidate (cur up v d : ℚ) :
    d ∈ push_candidate cur up v ↔
      ∃ δ ∈ ([-epsTiny, 0, epsTiny] : List ℚ), d = v + δ ∧ cur < d ∧ d < up := by
  unfold push_candidate
  rw [List.mem_filterMap]
  constructor
  · rintro ⟨δ, hδ, hf⟩
    dsimp only at hf
    split at hf
    · rename_i hcond
      cases Option.some.inj hf
      exact ⟨δ, hδ, rfl, hcond.1, hcond.2⟩
    · exact Option.noConfusion hf
  · rintro ⟨δ, hδ, rfl, h1, h2⟩
    refine ⟨δ, hδ, ?_⟩
    dsimp only
    rw [if_pos ⟨h1, h2⟩]

/-- C2 (amended): the critical-departure candidates are exactly the values
`b − o_e − dur + δ`, `b − o_e + δ`, `b − o_s + δ` strictly between the current and the
target departure, where `(o_s, o_e, dur)` ranges over the *first* offset span of each
route activity's place definition (not over every offset span, as claimed — see the
counterexample), `b` over the resolved-window endpoints of job activities whose place
has an absolute window span, and `δ ∈ {−ε, 0, ε}`; the candidate list is strictly
ascending, so its reversal is tried in strictly descending order; and a candidate whose
departure update is feasible is committed immediately, with no further candidate
tried. -/
theorem claim_C2_critical_candidates (c : Collab) (r : Route) (cur up : ℚ) :
    (∀ d, d ∈ compute_critical_departures r cur up ↔
      ∃ t ∈ break_offsets r, ∃ b ∈ job_tw_boundaries r,
        ∃ δ ∈ ([-epsTiny, 0, epsTiny] : List ℚ),
          (d = b - t.2.1 - t.2.2 + δ ∨ d = b - t.2.1 + δ ∨ d = b - t.1 + δ) ∧
          cur < d ∧ d < up) ∧
    (compute_critical_departures r cur up).Sorted (· < ·) ∧
    (∀ d rest rcx, ¬(d ≤ cur ∨ up ≤ d) →
      is_schedule_feasible c (update_route_departure c rcx d).route = true →
      tryCandidates c cur up (d :: rest) rcx = (update_route_departure c rcx d, [d], true)) := by
  refine ⟨?_, ?_, ?_⟩
  · intro d
    unfold compute_critical_departures
    dsimp only
    by_cases hempty : (break_offsets r).isEmpty = true
    · rw [if_pos hempty]
      have hnil : break_offsets r = [] := by
        cases hb : break_offsets r with
        | nil => rfl
        | cons z zs => rw [hb] at hempty; exact Bool.noConfusion hempty
      constructor
      · intro h
        exact absurd h (List.not_mem_nil d)
      · rintro ⟨t, ht, _⟩
        rw [hnil] at ht
        exact absurd ht (List.not_mem_nil t)
    · rw [if_neg hempty]
      rw [mem_dedupAdj, (List.perm_insertionSort _ _).mem_iff, List.mem_flatMap]
      constructor
      · rintro ⟨⟨os, oe, dur⟩, ht, hmem⟩
        dsimp only at hmem
        rw [List.mem_flatMap] at hmem
        obtain ⟨b, hb, hmm⟩ := hmem
        rw [List.mem_append, List.mem_append] at hmm
        rcases hmm with (h1 | h2) | h3
        · obtain ⟨δ, hδ, heq, hl1, hl2⟩ := (mem_push_candidate cur up _ d).1 h1
          exact ⟨(os, oe, dur), ht, b, hb, δ, hδ, Or.inl heq, hl1, hl2⟩
        · obtain ⟨δ, hδ, heq, hl1, hl2⟩ := (mem_push_candidate cur up _ d).1 h2
          exact ⟨(os, oe, dur), ht, b, hb, δ, hδ, Or.inr (Or.inl heq), hl1, hl2⟩
        · obtain ⟨δ, hδ, heq, hl1, hl2⟩ := (mem_push_candidate cur up _ d).1 h3
          exact ⟨(os, oe, dur), ht, b, hb, δ, hδ, Or.inr (Or.inr heq), hl1, hl2⟩
      · rintro ⟨⟨os, oe, dur⟩, ht, b, hb, δ, hδ, hform, h1, h2⟩
        refine ⟨(os, oe, dur), ht, ?_⟩
        dsimp only
        rw [List.mem_flatMap]
        refine ⟨b, hb, ?_⟩
        rw [List.mem_append, List.mem_append]
        rcases hform with hf | hf | hf
        · exact Or.inl (Or.inl ((mem_push_candidate cur up _ d).2 ⟨δ, hδ, hf, h1, h2⟩))
        · exact Or.inl (Or.inr ((mem_push_candidate cur up _ d).2 ⟨δ, hδ, hf, h1, h2⟩))
        · exact Or.inr ((mem_push_candidate cur up _ d).2 ⟨δ, hδ, hf, h1, h2⟩)
  · unfold compute_critical_departures
    dsimp only
    split
    · exact List.sorted_nil
    · exact sorted_dedupAdj _ (List.sorted_insertionSort _ _)
  · intro d rest rcx hskip hfeas
    have heq : tryCandidates c cur up (d :: rest) rcx =
        if d ≤ cur ∨ up ≤ d then tryCandidates c cur up rest rcx
        else
          let rcn := update_route_departure c rcx d
          if is_schedule_feasible c rcn.route then (rcn, [d], true)
          else ((tryCandidates c cur up rest rcn).1,
            d :: (tryCandidates c cur up rest rcn).2.1,
            (tryCandidates c cur up rest rcn).2.2) := rfl
    rw [heq, if_neg hskip]
    dsimp only
    rw [if_pos hfeas]

/-- Witness for C2: a strictly admissible, feasible candidate is committed at once. -/
theorem claim_C2_critical_candidates_witness :
    tryCandidates cUnit 0 10 [5] rcNoOff = (update_route_departure cUnit rcNoOff 5, [5], true) := by
  exact (claim_C2_critical_candidates cUnit rcNoOff.route 0 10).2.2 5 [] rcNoOff
    (by norm_num) (by decide)

/-- C2 counterexample: `aTwoB`'s place has a second offset span `(8, 8)`, so the
claim's candidate set contains 7 (= 15 − 8, strictly inside `(0, 10)`), but
`compute_critical_departures` only draws on the first offset span per activity: 7 is
not computed, and the slow path — which is reached — never tries it. -/
theorem claim_C2_counterexample :
    try_advance_departure_time cAdv rcC2 false = some 10 ∧
    rcC2.route.startDeparture = 0 ∧
    is_schedule_feasible cAdv (update_route_departure cAdv rcC2 10).route = false ∧
    (7 : ℚ) ∈ specCriticalDepartures (update_route_departure cAdv rcC2 10).route 0 10 ∧
    (7 : ℚ) ∉ compute_critical_departures (update_route_departure cAdv rcC2 10).route 0 10 ∧
    (7 : ℚ) ∉ (advanceT cAdv false rcC2).2.1 := by
  decide

/-- C7 (amended): `advance_departure_time` never decreases the route's start departure
and `recede_departure_time` never increases it; whenever no tried departure is feasible
the original departure is restored (the start departure after the call equals its value
before the call); and for routes none of whose place definitions carry an offset time
span, a route that was feasible before the call is feasible after it.  The claim's
unconditional feasibility-preservation reading is refuted by
the counterexample: the fallback restores the departure through a full schedule update
whose offset-window rebinding is not undone, so a feasible route can come back
infeasible. -/
theorem claim_C7_departure_repair (c : Collab) (whole : Bool) (rc : RouteContext) :
    rc.route.startDeparture ≤ (advance_departure_time c rc whole).route.startDeparture ∧
    (recede_departure_time c rc).route.startDeparture ≤ rc.route.startDeparture ∧
    ((advanceT c whole rc).2.2 = .restored →
      (advance_departure_time c rc whole).route.startDeparture = rc.route.startDeparture) ∧
    ((recedeT c rc).2 = false →
      (recede_departure_time c rc).route.startDeparture = rc.route.startDeparture) ∧
    (noOffsetTour rc.route = true → is_schedule_feasible c rc.route = true →
      is_schedule_feasible c (advance_departure_time c rc whole).route = true ∧
      is_schedule_feasible c (recede_departure_time c rc).route = true) := by
  obtain ⟨a1, a2, a3⟩ := advance_props c whole rc
  obtain ⟨r1, r2, r3⟩ := recede_props c rc
  exact ⟨a1, r1, a2, r2, fun hno hf => ⟨a3 hno hf, r3 hno hf⟩⟩

/-- Witness for C7: on an offset-free feasible route, recede restores the departure
(its probe fails on the empty latest-arrival state) and advance keeps the route
feasible. -/
theorem claim_C7_departure_repair_witness :
    (recede_departure_time cUnit rcNoOff).route.startDeparture =
      rcNoOff.route.startDeparture ∧
    is_schedule_feasible cUnit (advance_departure_time cUnit rcNoOff false).route = true := by
  have h := claim_C7_departure_repair cUnit false rcNoOff
  exact ⟨h.2.2.2.1 (by decide), (h.2.2.2.2 (by decide) (by decide)).1⟩

/-- C7 counterexample: `rcAdv` is feasible at departure 0; `advance_departure_time`
targets 10, finds every candidate infeasible and restores departure 0, but the offset
spans were rebound along the way, so the restored route is infeasible. -/
theorem claim_C7_counterexample :
    is_schedule_feasible cAdv rcAdv.route = true ∧
    (advanceT cAdv false rcAdv).2.2 = AdvanceOutcome.restored ∧
    (advance_departure_time cAdv rcAdv false).route.startDeparture =
      rcAdv.route.startDeparture ∧
    is_schedule_feasible cAdv (advance_departure_time cAdv rcAdv false).route = false := by
  decide

end Vrp
